import Mathlib

/-!
Verification of csds-client: node-matcher loading and response printing

A shallow embedding of `csds-client/client/util.go`:

* `isJson` and `parseYaml` (loading node matchers from a request file and an
  inline request text, merging the second into the first by position),
* `getValueByKeyFromNodeMatcher`,
* `TypeResolver.FindMessageByURL`,
* `parseConfigStatus` and `printOutResponse`,

and of the helpers `shouldEqualJSON` and `equalJSONBytes` of
`csds-client/client/client_test.go`.

Go values are embedded as plain data.  A call of `parseYaml` or
`printOutResponse` ends in one of three ways, kept apart by `Status`:
`return nil`, `return err`, or a run-time panic.  The packages the file
imports (`encoding/json`, `ghodss/yaml`, `protojson`, `os`) and the generated
code of the response types are taken as parameters, bundled in `Lib` for the
loader and in `Env` for the printer.  The generated matcher types are modelled
from the data model of the spec.
-/

set_option maxRecDepth 8000

namespace Csds

/-! ## Node matchers -/

/-- Modelled from the spec: the `match_pattern` oneof of the generated
`envoy_type_matcher.StringMatcher` type, which is not part of the sources.
The spec's data model gives a string match "exact/prefix/suffix/regex
semantics"; each alternative carries its string. -/
inductive MatchPattern where
  | Exact (s : String)
  | Prefix (s : String)
  | Suffix (s : String)
  | Regex (s : String)
  deriving DecidableEq, Repr

/-- Modelled from the spec: `envoy_type_matcher.StringMatcher`.  The oneof may
be unset (`none`): `protojson` decodes the object `{}` to a present
`StringMatcher` without a pattern. -/
structure StringMatcher where
  match_pattern : Option MatchPattern
  deriving DecidableEq, Repr

/-- One segment of a metadata path; `key` is `none` when the segment oneof is
unset. -/
structure PathSegment where
  key : Option String
  deriving DecidableEq, Repr

/-- Modelled from the spec: the value side of a metadata matcher, "a
string-match value"; `string_match` is `none` when the value matcher holds
no string match. -/
structure ValueMatcher where
  string_match : Option StringMatcher
  deriving DecidableEq, Repr

/-- Modelled from the spec: a metadata matcher (`StructMatcher`), a key path
paired with a value matcher. -/
structure StructMatcher where
  path : List PathSegment
  value : Option ValueMatcher
  deriving DecidableEq, Repr

/-- Modelled from the spec: `envoy_type_matcher.NodeMatcher`, "an optional
node-identity string-match and an ordered sequence of metadata-matchers". -/
structure NodeMatcher where
  node_id : Option StringMatcher
  node_metadatas : List StructMatcher
  deriving DecidableEq, Repr

/-- Modelled from the spec: `proto.Merge(dst, src)`, a library function, on
`StringMatcher`.  "Singular scalar fields present in `overlay` overwrite the
corresponding field in `base`; unset fields in `overlay` leave `base`'s value
untouched": a pattern that `src` populates replaces the one of `dst`, an
unpopulated one leaves `dst` as it is. -/
def StringMatcher.Merge (dst src : StringMatcher) : StringMatcher :=
  match src.match_pattern with
  | some p => { match_pattern := some p }
  | none => dst

/-- Modelled from the spec: `proto.Merge(dst, src)`, a library function, on
`NodeMatcher`.  The populated singular message `node_id` of `src` is merged
into the one of `dst` field by field (into a fresh empty message when `dst`
has none); "repeated fields are concatenated (base entries first, then
overlay entries)": the elements of `node_metadatas` of `src` are appended to
those of `dst`. -/
def NodeMatcher.Merge (dst src : NodeMatcher) : NodeMatcher :=
  { node_id :=
      match src.node_id with
      | none => dst.node_id
      | some s =>
        match dst.node_id with
        | none => some (StringMatcher.Merge { match_pattern := none } s)
        | some d => some (StringMatcher.Merge d s)
    node_metadatas := dst.node_metadatas ++ src.node_metadatas }

/-- The scalar field under `node_id`: the pattern the node-identity match
carries, `none` when `node_id` is absent or carries no pattern. -/
def NodeMatcher.idPattern (nm : NodeMatcher) : Option MatchPattern :=
  match nm.node_id with
  | none => none
  | some s => s.match_pattern

/-! ## Decoded JSON and the imported packages -/

/-- What `json.Unmarshal` stores in an `interface{}`.  A number is kept as the
bit pattern of its `float64`; an object is kept as its key/value pairs, looked
up by first match. -/
inductive Json where
  | null
  | bool (b : Bool)
  | num (bits : Nat)
  | str (s : String)
  | arr (items : List Json)
  | obj (fields : List (String × Json))

/-- A token returned by `json.Decoder.Token`. -/
inductive Token where
  | delim (c : Char)
  | bool (b : Bool)
  | num (bits : Nat)
  | str (s : String)
  | null

/-- The imported packages `parseYaml` calls, as parameters.  An `Except.error`
carries the message of the Go `error`. -/
structure Lib where
  /-- Embeds `filepath.Abs`. -/
  abs : String → Except String String
  /-- Embeds `ioutil.ReadFile`. -/
  readFile : String → Except String String
  /-- Embeds `yaml.YAMLToJSON`. -/
  yamlToJSON : String → Except String String
  /-- The results of the successive calls of `Decoder.Token` on a decoder
  reading the given text, up to but excluding the final `io.EOF`. -/
  decoderTokens : String → List (Except String Token)
  /-- Embeds `json.Unmarshal` into an `interface{}`. -/
  jsonUnmarshal : String → Except String Json
  /-- The two calls made on each item of the `node_matchers` list, in sequence:
  `json.Marshal(n)`, then `protojson.Unmarshal` of its bytes into a fresh
  `NodeMatcher`; the error is that of the first call that fails. -/
  unmarshalMatcher : Json → Except String NodeMatcher

/-- How a call ends: `return nil`, `return err`, or a run-time panic.  The string
of an error or a panic is a label for its cause; the text Go prints may say
more (a panic of a type assertion also names the dynamic type it found). -/
inductive Status where
  | ok
  | error (e : String)
  | panic (msg : String)
  deriving DecidableEq, Repr

/-- The matcher list `*nms` when `parseYaml` ends, and how it ended. -/
structure ParseResult where
  nms : List NodeMatcher
  status : Status
  deriving DecidableEq, Repr

/-- The loop of `isJson`: read tokens until `io.EOF` (the end of the list);
the first error makes the answer `false`. -/
def isJsonLoop : List (Except String Token) → Bool
  | [] => true
  | .ok _ :: rest => isJsonLoop rest
  | .error _ :: _ => false

/-- Embeds `isJson`. -/
def isJson (lib : Lib) (str : String) : Bool :=
  isJsonLoop (lib.decoderTokens str)

/-- Embeds `json.Unmarshal(js, &data)` with `data` a `map[string]interface{}`: an
object fills the map, `null` leaves the map nil (no error), any other value
is a type error (its text here is a label: the message of Go also names the
kind of the value). -/
def unmarshalMap (lib : Lib) (js : String) : Except String (List (String × Json)) :=
  match lib.jsonUnmarshal js with
  | .error e => .error e
  | .ok (.obj fields) => .ok fields
  | .ok .null => .ok []
  | .ok _ => .error "json: cannot unmarshal into Go value of type map[string]interface {}"

/-- The expression `data["node_matchers"].([]interface{})`: the items when the
key holds a list, `none` when the single-value type assertion panics (key
missing, or any other value, `null` included). -/
def nodeMatchersOf (data : List (String × Json)) : Option (List Json) :=
  match data.lookup "node_matchers" with
  | some (.arr items) => some items
  | _ => none

/-- The loop over the file's matchers (util.go lines 65-76): each item is
marshalled and decoded into a fresh matcher, which is appended; the first
error ends the call. -/
def appendLoop (lib : Lib) : List Json → List NodeMatcher → ParseResult
  | [], nms => ⟨nms, .ok⟩
  | n :: rest, nms =>
    match lib.unmarshalMatcher n with
    | .error e => ⟨nms, .error e⟩
    | .ok x => appendLoop lib rest (nms ++ [x])

/-- The loop over the inline text's matchers (util.go lines 99-116), from
index `i` on: each item is marshalled and decoded, then merged into `nms[i]`
when `i < len(nms)` and appended otherwise; the first error ends the call. -/
def mergeLoop (lib : Lib) : Nat → List Json → List NodeMatcher → ParseResult
  | _, [], nms => ⟨nms, .ok⟩
  | i, n :: rest, nms =>
    match lib.unmarshalMatcher n with
    | .error e => ⟨nms, .error e⟩
    | .ok x =>
      if h : i < nms.length then
        mergeLoop lib (i + 1) rest (nms.set i (NodeMatcher.Merge (nms.get ⟨i, h⟩) x))
      else
        mergeLoop lib (i + 1) rest (nms ++ [x])

/-- Lines 45-62 of `parseYaml`: the file at `path` read, converted to JSON and
unmarshalled into the map `data`. -/
def fileDocument (lib : Lib) (path : String) : Except String (List (String × Json)) :=
  match lib.abs path with
  | .error e => .error e
  | .ok filename =>
    match lib.readFile filename with
    | .error e => .error e
    | .ok yamlFile =>
      match lib.yamlToJSON yamlFile with
      | .error e => .error e
      | .ok js => unmarshalMap lib js

/-- Lines 79-96 of `parseYaml`: the inline text, taken as it is when `isJson`
accepts it and converted by `YAMLToJSON` otherwise, unmarshalled into the map
`data`. -/
def textDocument (lib : Lib) (yamlStr : String) : Except String (List (String × Json)) :=
  if isJson lib yamlStr then unmarshalMap lib yamlStr
  else
    match lib.yamlToJSON yamlStr with
    | .error e => .error e
    | .ok js => unmarshalMap lib js

/-- The label of the panic raised by a failed single-value type assertion to
`[]interface{}`.  The message of the Go runtime also names the dynamic type of
the value (`is nil, not ...`, `is string, not ...`), which the label leaves
out. -/
def notAList : String := "interface conversion: interface {} is not []interface {}"

/-- The `if path != ""` block of `parseYaml`. -/
def fileStage (lib : Lib) (path : String) (nms : List NodeMatcher) : ParseResult :=
  match fileDocument lib path with
  | .error e => ⟨nms, .error e⟩
  | .ok data =>
    match nodeMatchersOf data with
    | none => ⟨nms, .panic notAList⟩
    | some items => appendLoop lib items nms

/-- The `if yamlStr != ""` block of `parseYaml`. -/
def textStage (lib : Lib) (yamlStr : String) (nms : List NodeMatcher) : ParseResult :=
  match textDocument lib yamlStr with
  | .error e => ⟨nms, .error e⟩
  | .ok data =>
    match nodeMatchersOf data with
    | none => ⟨nms, .panic notAList⟩
    | some items => mergeLoop lib 0 items nms

/-- Embeds `parseYaml(path, yamlStr, nms)`: the file block, then, unless it ended the
call, the inline-text block. -/
def parseYaml (lib : Lib) (path yamlStr : String) (nms : List NodeMatcher) : ParseResult :=
  let afterFile := if path ≠ "" then fileStage lib path nms else ⟨nms, .ok⟩
  match afterFile.status with
  | .ok => if yamlStr ≠ "" then textStage lib yamlStr afterFile.nms else ⟨afterFile.nms, .ok⟩
  | _ => afterFile

/-! ### Reference notions for the loader -/

/-- The pairing the spec describes for the merger: `overlay[i]` is merged into
`base[i]` while both lists last, and the rest of the longer list follows. -/
def positionalMerge : List NodeMatcher → List NodeMatcher → List NodeMatcher
  | b :: bs, o :: os => NodeMatcher.Merge b o :: positionalMerge bs os
  | [], os => os
  | bs, [] => bs

/-- The matchers of a `node_matchers` list that decode before the first
malformed one, and the error of that one (`none` when every item decodes). -/
def decodePrefix (lib : Lib) : List Json → List NodeMatcher × Option String
  | [] => ([], none)
  | n :: rest =>
    match lib.unmarshalMatcher n with
    | .error e => ([], some e)
    | .ok x => (x :: (decodePrefix lib rest).1, (decodePrefix lib rest).2)

/-- The status of a loop whose first failure, if any, is the given error. -/
def statusOfFailure : Option String → Status
  | none => .ok
  | some e => .error e

/-! ### A library instance for concrete runs -/

/-- The `protojson` decoding of a `StringMatcher` object, for the objects used
in the examples: no field, or one pattern field holding a string. -/
def decodeStringMatcher : Json → Except String StringMatcher
  | .obj [] => .ok ⟨none⟩
  | .obj [("exact", .str s)] => .ok ⟨some (.Exact s)⟩
  | .obj [("prefix", .str s)] => .ok ⟨some (.Prefix s)⟩
  | .obj [("suffix", .str s)] => .ok ⟨some (.Suffix s)⟩
  | .obj [("regex", .str s)] => .ok ⟨some (.Regex s)⟩
  | _ => .error "proto: syntax error: invalid StringMatcher"

/-- The `protojson` decoding of one metadata matcher, for the objects used in
the examples: a path of one key, and a string-match value. -/
def decodeStructMatcher : Json → Except String StructMatcher
  | .obj [("path", .arr [.obj [("key", .str k)]]), ("value", .obj [("string_match", m)])] =>
    match decodeStringMatcher m with
    | .error e => .error e
    | .ok sm => .ok ⟨[⟨some k⟩], some ⟨some sm⟩⟩
  | _ => .error "proto: syntax error: invalid StructMatcher"

/-- The decoding of a list of metadata matchers; the first error wins. -/
def decodeStructMatchers : List Json → Except String (List StructMatcher)
  | [] => .ok []
  | j :: rest =>
    match decodeStructMatcher j with
    | .error e => .error e
    | .ok m =>
      match decodeStructMatchers rest with
      | .error e => .error e
      | .ok ms => .ok (m :: ms)

/-- The `protojson` decoding of a `NodeMatcher` object, for the objects used in
the examples: `node_id` and `node_metadatas`, each optional, in this order.
Anything else, a `node_id` that is not an object in particular, is an error,
as it is for `protojson.Unmarshal`. -/
def decodeNodeMatcher : Json → Except String NodeMatcher
  | .obj [] => .ok ⟨none, []⟩
  | .obj [("node_id", m)] =>
    match decodeStringMatcher m with
    | .error e => .error e
    | .ok sm => .ok ⟨some sm, []⟩
  | .obj [("node_metadatas", .arr ms)] =>
    match decodeStructMatchers ms with
    | .error e => .error e
    | .ok l => .ok ⟨none, l⟩
  | .obj [("node_id", m), ("node_metadatas", .arr ms)] =>
    match decodeStringMatcher m with
    | .error e => .error e
    | .ok sm =>
      match decodeStructMatchers ms with
      | .error e => .error e
      | .ok l => .ok ⟨some sm, l⟩
  | _ => .error "proto: syntax error: invalid NodeMatcher"

/-- A library instance for concrete runs: `files` is the content of the file
system, `docs` gives the decoded value of each JSON text in use (any other
text is a syntax error).  Every text is JSON here, so the tokenizer reports no
error and `YAMLToJSON` returns its input. -/
def Lib.fixture (files : List (String × String)) (docs : List (String × Json)) : Lib where
  abs := fun path => .ok path
  readFile := fun name =>
    match files.lookup name with
    | some content => .ok content
    | none => .error "open: no such file or directory"
  yamlToJSON := fun text => .ok text
  decoderTokens := fun _ => []
  jsonUnmarshal := fun text =>
    match docs.lookup text with
    | some v => .ok v
    | none => .error "invalid character looking for beginning of value"
  unmarshalMatcher := decodeNodeMatcher

/-- The text of an example request file with one matcher: a node id and one
metadata matcher. -/
def exampleFileText : String :=
  "\x7b\"node_matchers\": [\x7b\"node_id\": \x7b\"exact\": \"fake_node_id\"\x7d, \"node_metadatas\": [\x7b\"path\": [\x7b\"key\": \"TRAFFICDIRECTOR_NETWORK_NAME\"\x7d], \"value\": \x7b\"string_match\": \x7b\"exact\": \"fake_network_name\"\x7d\x7d\x7d]\x7d]\x7d"

/-- The decoded value of `exampleFileText`. -/
def exampleFileDoc : Json :=
  .obj [("node_matchers", .arr [
    .obj [("node_id", .obj [("exact", .str "fake_node_id")]),
      ("node_metadatas", .arr [
        .obj [("path", .arr [.obj [("key", .str "TRAFFICDIRECTOR_NETWORK_NAME")]]),
          ("value", .obj [("string_match", .obj [("exact", .str "fake_network_name")])])]])]])]

/-- The matcher `exampleFileText` holds. -/
def exampleFileMatcher : NodeMatcher :=
  ⟨some ⟨some (.Exact "fake_node_id")⟩,
    [⟨[⟨some "TRAFFICDIRECTOR_NETWORK_NAME"⟩], some ⟨some ⟨some (.Exact "fake_network_name")⟩⟩⟩]⟩

/-- An example inline request text that sets only the node id of the first
matcher. -/
def exampleInlineText : String :=
  "\x7b\"node_matchers\": [\x7b\"node_id\": \x7b\"exact\": \"fake_node_id_from_cli\"\x7d\x7d]\x7d"

/-- The decoded value of `exampleInlineText`. -/
def exampleInlineDoc : Json :=
  .obj [("node_matchers", .arr [.obj [("node_id", .obj [("exact", .str "fake_node_id_from_cli")])]])]

/-- A request text whose second matcher is malformed: its `node_id` is a number
where `protojson` expects an object. -/
def exampleBrokenText : String :=
  "\x7b\"node_matchers\": [\x7b\"node_id\": \x7b\"exact\": \"a\"\x7d\x7d, \x7b\"node_id\": 5\x7d]\x7d"

/-- The decoded value of `exampleBrokenText`. -/
def exampleBrokenDoc : Json :=
  .obj [("node_matchers", .arr [
    .obj [("node_id", .obj [("exact", .str "a")])],
    .obj [("node_id", .num 4617315517961601024)]])]

/-- A request text that is a JSON object whose `node_matchers` is not a list. -/
def exampleNoListText : String :=
  "\x7b\"node_matchers\": \"all\"\x7d"

/-- The decoded value of `exampleNoListText`. -/
def exampleNoListDoc : Json :=
  .obj [("node_matchers", .str "all")]

/-- The library instance of the examples: two request files and the four
texts above. -/
def exampleLib : Lib :=
  Lib.fixture
    [("./test_request.yaml", exampleFileText), ("./broken_request.yaml", exampleBrokenText)]
    [(exampleFileText, exampleFileDoc), (exampleInlineText, exampleInlineDoc),
      (exampleBrokenText, exampleBrokenDoc), (exampleNoListText, exampleNoListDoc)]

/-! ## The type resolver -/

/-- The message types `FindMessageByURL` can return. -/
inductive MessageType where
  | HttpConnectionManager
  | Cluster
  | Listener
  | Router
  | RouteConfiguration
  deriving DecidableEq, Repr

/-- The only error the resolver returns, `protoregistry.NotFound`. -/
inductive ResolveError where
  | NotFound
  deriving DecidableEq, Repr

/-- Embeds `TypeResolver.FindMessageByURL`: a `switch` on the url. -/
def TypeResolver.FindMessageByURL (url : String) : Except ResolveError MessageType :=
  if url = "type.googleapis.com/envoy.config.filter.network.http_connection_manager.v2.HttpConnectionManager" then
    .ok .HttpConnectionManager
  else if url = "type.googleapis.com/envoy.api.v2.Cluster" then
    .ok .Cluster
  else if url = "type.googleapis.com/envoy.api.v2.Listener" then
    .ok .Listener
  else if url = "type.googleapis.com/envoy.config.filter.http.router.v2.Router" then
    .ok .Router
  else if url = "type.googleapis.com/envoy.api.v2.RouteConfiguration" then
    .ok .RouteConfiguration
  else
    .error .NotFound

/-- The five type URLs the claim about the resolver lists (the spec's "fixed
registry"), written out independently of the `switch`. -/
def registeredURLs : List String :=
  [ "type.googleapis.com/envoy.config.filter.network.http_connection_manager.v2.HttpConnectionManager",
    "type.googleapis.com/envoy.api.v2.Cluster",
    "type.googleapis.com/envoy.api.v2.Listener",
    "type.googleapis.com/envoy.config.filter.http.router.v2.Router",
    "type.googleapis.com/envoy.api.v2.RouteConfiguration" ]

/-! ## The status response -/

/-- A `structpb.Value`: the kinds of the `kind` oneof, and `kind_unset` for a
value whose oneof is nil.  A number is kept as the bit pattern of its
`float64`. -/
inductive Value where
  | kind_unset
  | null_value
  | number_value (bits : Nat)
  | string_value (s : String)
  | bool_value (b : Bool)
  | struct_value (fields : List (String × Value))
  | list_value (values : List Value)

mutual
/-- Embeds `Value.AsInterface`: nil for a null or unset value, the Go value of the same
kind otherwise. -/
def Value.AsInterface : Value → Json
  | .kind_unset => .null
  | .null_value => .null
  | .number_value bits => .num bits
  | .string_value s => .str s
  | .bool_value b => .bool b
  | .struct_value fields => .obj (asMapFields fields)
  | .list_value values => .arr (asSlice values)
/-- Embeds `Struct.AsMap` on the fields of a struct. -/
def asMapFields : List (String × Value) → List (String × Json)
  | [] => []
  | (k, v) :: rest => (k, v.AsInterface) :: asMapFields rest
/-- Embeds `ListValue.AsSlice` on the values of a list. -/
def asSlice : List Value → List Json
  | [] => []
  | v :: rest => v.AsInterface :: asSlice rest
end

/-- A `core.Node` as far as `printOutResponse` reads it: the id and the
metadata struct (`none` when the field is nil), its fields looked up by first
match. -/
structure Node where
  id : String
  metadata : Option (List (String × Value))

/-- Embeds `node.GetMetadata().AsMap()`: the fields with each value converted; a nil
struct gives the empty map. -/
def Node.metadataAsMap (node : Node) : List (String × Json) :=
  match node.metadata with
  | none => []
  | some fields => asMapFields fields

/-- The Go expression `m[key]` on a `map[string]interface{}`: nil (`Json.null`)
when the key is missing. -/
def mapIndex (m : List (String × Json)) (key : String) : Json :=
  match m.lookup key with
  | some v => v
  | none => .null

/-- Modelled from the spec: the "optional opaque dynamic payload" of a
per-config status, a config dump whose content the summary never reads. -/
structure ConfigDump where
  raw : String
  deriving DecidableEq, Repr

/-- The `per_xds_config` oneof of `csdspb.PerXdsConfig`: which wrapper is set,
and the payload pointer it holds (`none` when that pointer is nil). -/
inductive PerXdsConfigOneof where
  | ListenerConfig (dump : Option ConfigDump)
  | ClusterConfig (dump : Option ConfigDump)
  | RouteConfig (dump : Option ConfigDump)
  | ScopedRouteConfig (dump : Option ConfigDump)
  deriving DecidableEq, Repr

/-- A `csdspb.PerXdsConfig`: the number of its `ConfigStatus` enum value and the
oneof (`none` when unset).  A nil pointer in the slice reads, through the
getters, like `⟨0, none⟩`. -/
structure PerXdsConfig where
  status : Int
  per_xds_config : Option PerXdsConfigOneof
  deriving DecidableEq, Repr

/-- Embeds `GetClusterConfig()`. -/
def PerXdsConfig.GetClusterConfig (x : PerXdsConfig) : Option ConfigDump :=
  match x.per_xds_config with
  | some (.ClusterConfig d) => d
  | _ => none

/-- Embeds `GetListenerConfig()`. -/
def PerXdsConfig.GetListenerConfig (x : PerXdsConfig) : Option ConfigDump :=
  match x.per_xds_config with
  | some (.ListenerConfig d) => d
  | _ => none

/-- Embeds `GetRouteConfig()`. -/
def PerXdsConfig.GetRouteConfig (x : PerXdsConfig) : Option ConfigDump :=
  match x.per_xds_config with
  | some (.RouteConfig d) => d
  | _ => none

/-- Embeds `GetScopedRouteConfig()`. -/
def PerXdsConfig.GetScopedRouteConfig (x : PerXdsConfig) : Option ConfigDump :=
  match x.per_xds_config with
  | some (.ScopedRouteConfig d) => d
  | _ => none

/-- A `csdspb.ClientConfig`: the node (`none` when nil) and the `xds_config`
slice, `none` when the slice is nil and `some []` when it is empty but not
nil.  A nil pointer in the response reads like `⟨none, none⟩`. -/
structure ClientConfig where
  node : Option Node
  xds_config : Option (List PerXdsConfig)

/-- A `csdspb.ClientStatusResponse`; a nil response reads like `⟨[]⟩`. -/
structure ClientStatusResponse where
  config : List ClientConfig

/-- What `printOutResponse` does to the file system. -/
inductive FileEvent where
  | create (name : String)
  | write (name : String) (bytes : String)
  deriving DecidableEq, Repr

/-- The generated and imported code `parseConfigStatus` and `printOutResponse`
call, as parameters. -/
structure Env where
  /-- Embeds `ConfigStatus.String()` of the enum value with the given number. -/
  statusString : Int → String
  /-- Embeds `protojson.MarshalOptions.Marshal` with the options and resolver of
  `printOutResponse`. -/
  marshal : ClientStatusResponse → Except String String
  /-- Embeds `os.Create`. -/
  create : String → Except String Unit
  /-- Embeds `f.Write` on the file created under the given name. -/
  write : String → String → Except String Unit

/-- What a call of `printOutResponse` leaves behind: the text written to
standard output, the file events, and how the call ended. -/
structure Output where
  stdout : String
  files : List FileEvent
  status : Status
  deriving DecidableEq, Repr

/-- The tag `parseConfigStatus` picks for an entry: the `if`/`else if` chain
over the four getters, the empty string when none is populated. -/
def xdsTag (perXdsConfig : PerXdsConfig) : String :=
  if perXdsConfig.GetClusterConfig ≠ none then "CDS"
  else if perXdsConfig.GetListenerConfig ≠ none then "LDS"
  else if perXdsConfig.GetRouteConfig ≠ none then "RDS"
  else if perXdsConfig.GetScopedRouteConfig ≠ none then "SRDS"
  else ""

/-- Embeds `parseConfigStatus`: the loop appends `xds+"   "+status` for each entry
whose status string and tag are both non-empty. -/
def parseConfigStatus (env : Env) (xdsConfig : List PerXdsConfig) : List String :=
  xdsConfig.foldl
    (fun configStatus perXdsConfig =>
      let status := env.statusString perXdsConfig.status
      let xds := xdsTag perXdsConfig
      if status ≠ "" ∧ xds ≠ "" then configStatus ++ [xds ++ "   " ++ status] else configStatus)
    []

/-- The `fmt` verb `%-Ns`: the string, then spaces up to `width` characters
(none when the string is already that long). -/
def padRight (width : Nat) (s : String) : String :=
  s ++ String.mk (List.replicate (width - s.length) ' ')

/-- Embeds `fmt.Printf("%-50s %-30s %-30s \n", a, b, c)`. -/
def tableRow (a b c : String) : String :=
  padRight 50 a ++ " " ++ padRight 30 b ++ " " ++ padRight 30 c ++ " \n"

/-- Embeds `fmt.Printf("%-50s %-30s ", id, xdsType)`. -/
def rowStart (id xdsType : String) : String :=
  padRight 50 id ++ " " ++ padRight 30 xdsType ++ " "

/-- The loop `for i := 0; i < len(configStatus); i++` of `printOutResponse`,
from index `i` on: the entry at index 0 completes the started row, each later
one gets a row of its own with the first two columns blank. -/
def statusRows : Nat → List String → String
  | _, [] => ""
  | i, s :: rest =>
    (if i = 0 then padRight 30 s ++ " \n" else tableRow "" "" s) ++ statusRows (i + 1) rest

/-- The first part of the loop body of `printOutResponse` (lines 209-221): the
id and stream type of a client, or `none` when the type assertion
`metadata["XDS_STREAM_TYPE"].(string)` panics. -/
def clientIdentity (config : ClientConfig) : Option (String × String) :=
  match config.node with
  | none => some ("", "")
  | some node =>
    match mapIndex node.metadataAsMap "XDS_STREAM_TYPE" with
    | .null => some (node.id, "")
    | .str s => some (node.id, s)
    | _ => none

/-- The state the client loop of `printOutResponse` carries. -/
structure LoopState where
  stdout : String
  hasXdsConfig : Bool
  deriving DecidableEq, Repr

/-- The second part of the loop body (lines 223-244), for a client whose id and
stream type were extracted. -/
def printClient (env : Env) (config : ClientConfig) (id xdsType : String) (st : LoopState) :
    LoopState :=
  match config.xds_config with
  | none =>
    if config.node.isSome then { st with stdout := st.stdout ++ tableRow id xdsType "N/A" }
    else st
  | some xdsConfig =>
    let configStatus := parseConfigStatus env xdsConfig
    { stdout := st.stdout ++ rowStart id xdsType ++ statusRows 0 configStatus ++
        (if configStatus.length = 0 then "\n" else ""),
      hasXdsConfig := true }

/-- The loop over the clients of the response: the final state, and whether
the loop was cut short by a panic. -/
def summaryLoop (env : Env) : List ClientConfig → LoopState → LoopState × Bool
  | [], st => (st, false)
  | config :: rest, st =>
    match clientIdentity config with
    | none => (st, true)
    | some (id, xdsType) => summaryLoop env rest (printClient env config id xdsType st)

/-- The `if hasXdsConfig` block of `printOutResponse`, given the text printed
so far. -/
def exportConfig (env : Env) (response : ClientStatusResponse) (fileName : String)
    (stdout : String) : Output :=
  match env.marshal response with
  | .error e => ⟨stdout, [], .error e⟩
  | .ok out =>
    if fileName = "" then
      ⟨stdout ++ "Detailed Config:\n" ++ (out ++ "\n"), [], .ok⟩
    else
      match env.create fileName with
      | .error e => ⟨stdout, [], .error e⟩
      | .ok _ =>
        match env.write fileName out with
        | .error e => ⟨stdout, [.create fileName], .error e⟩
        | .ok _ =>
          ⟨stdout ++ ("Config has been saved to " ++ fileName ++ "\n"),
            [.create fileName, .write fileName out], .ok⟩

/-- Embeds `printOutResponse(response, fileName)`.  The text of the panic is a label:
the message of the Go runtime also names the dynamic type that was found in
place of a string. -/
def printOutResponse (env : Env) (response : ClientStatusResponse) (fileName : String) :
    Output :=
  if response.config.length = 0 then
    ⟨"No xDS clients connected.\n", [], .ok⟩
  else
    match summaryLoop env response.config
        ⟨tableRow "Client ID" "xDS stream type" "Config Status", false⟩ with
    | (st, true) => ⟨st.stdout, [], .panic "interface conversion: interface {} is not string"⟩
    | (st, false) =>
      if st.hasXdsConfig then exportConfig env response fileName st.stdout
      else ⟨st.stdout, [], .ok⟩

/-! ### Reference notions and example data for the printer -/

/-- The tag the claim about `parseConfigStatus` gives an entry: `CDS`, `LDS`,
`RDS` or `SRDS` when the cluster, listener, route or scoped-route sub-config
is populated, none otherwise. -/
def populatedTag (x : PerXdsConfig) : Option String :=
  match x.per_xds_config with
  | some (.ClusterConfig (some _)) => some "CDS"
  | some (.ListenerConfig (some _)) => some "LDS"
  | some (.RouteConfig (some _)) => some "RDS"
  | some (.ScopedRouteConfig (some _)) => some "SRDS"
  | _ => none

/-- The summary string of one entry as the claim describes it: tag, three
spaces, status, for an entry with a populated kind and a non-empty status
string; nothing for any other entry. -/
def visibleStatus (env : Env) (x : PerXdsConfig) : Option String :=
  match populatedTag x with
  | some tag =>
    if env.statusString x.status ≠ "" then some (tag ++ "   " ++ env.statusString x.status)
    else none
  | none => none

/-- The text made of the given printed lines, in order. -/
def lines : List String → String
  | [] => ""
  | l :: ls => l ++ lines ls

/-- The header line of the summary table. -/
def headerRow : String := tableRow "Client ID" "xDS stream type" "Config Status"

/-- The names of the `ConfigStatus` enum values of `csds.proto`, for the
examples; a number outside the enum prints as the number. -/
def configStatusName (n : Int) : String :=
  if n = 0 then "UNKNOWN"
  else if n = 1 then "SYNCED"
  else if n = 2 then "NOT_SENT"
  else if n = 3 then "STALE"
  else if n = 4 then "ERROR"
  else toString n

/-- The environment of the examples: the enum names above, a serializer that
returns the given text, and a file system on which every call succeeds. -/
def Env.fixture (dump : String) : Env where
  statusString := configStatusName
  marshal := fun _ => .ok dump
  create := fun _ => .ok ()
  write := fun _ _ => .ok ()

/-- A node with the given id whose metadata holds the given stream type. -/
def exampleNode (id streamType : String) : Node :=
  ⟨id, some [("XDS_STREAM_TYPE", .string_value streamType)]⟩

/-- A response of three clients with an identity and no sub-config. -/
def exampleResponseWithoutConfig : ClientStatusResponse :=
  ⟨[⟨some (exampleNode "test_node_1" "test_stream_type1"), none⟩,
    ⟨some (exampleNode "test_node_2" "test_stream_type2"), none⟩,
    ⟨some (exampleNode "test_node_3" "test_stream_type3"), none⟩]⟩

/-- A client with an identity and two stale sub-configs, route then cluster. -/
def exampleClientWithConfig : ClientConfig :=
  ⟨some (exampleNode "test_nodeid" "test_stream_type1"),
    some [⟨3, some (.RouteConfig (some ⟨""⟩))⟩, ⟨3, some (.ClusterConfig (some ⟨""⟩))⟩]⟩

/-- A client without a node that carries one stale cluster sub-config. -/
def exampleClientWithoutNode : ClientConfig :=
  ⟨none, some [⟨3, some (.ClusterConfig (some ⟨""⟩))⟩]⟩

/-! ## Further definitions: the metadata lookup, the summary text, JSON equality -/

/-- Embeds `GetKey()` on a path segment: its key, the empty string when the
segment holds none. -/
def PathSegment.GetKey (p : PathSegment) : String :=
  match p.key with
  | some k => k
  | none => ""

/-- Embeds `GetStringMatch()` on the `Value` field of a metadata matcher; the
getter answers nil on a nil receiver. -/
def ValueMatcher.GetStringMatch (v : Option ValueMatcher) : Option StringMatcher :=
  match v with
  | some vm => vm.string_match
  | none => none

/-- Embeds `GetExact()`: the string of an exact pattern, the empty string for a nil
receiver, an unset pattern or a pattern of another kind. -/
def StringMatcher.GetExact (m : Option StringMatcher) : String :=
  match m with
  | some ⟨some (.Exact s)⟩ => s
  | _ => ""

/-- The innermost loop of `getValueByKeyFromNodeMatcher`, over the path of one
metadata matcher: whether some segment has the key, so that the function
returns. -/
def pathLoop (key : String) : List PathSegment → Bool
  | [] => false
  | path :: rest => if path.GetKey = key then true else pathLoop key rest

/-- The middle loop, over the metadata matchers of one node matcher: the value
returned from inside the loop, `none` when the loop runs to its end. -/
def metadataLoop (key : String) : List StructMatcher → Option String
  | [] => none
  | mt :: rest =>
    if pathLoop key mt.path then some (StringMatcher.GetExact (ValueMatcher.GetStringMatch mt.value))
    else metadataLoop key rest

/-- The outer loop, over the node matchers. -/
def matcherLoop (key : String) : List NodeMatcher → Option String
  | [] => none
  | nm :: rest =>
    match metadataLoop key nm.node_metadatas with
    | some v => some v
    | none => matcherLoop key rest

/-- Embeds `getValueByKeyFromNodeMatcher`: the value returned from inside the loops,
the empty string when they run to their end. -/
def getValueByKeyFromNodeMatcher (nms : List NodeMatcher) (key : String) : String :=
  match matcherLoop key nms with
  | some v => v
  | none => ""

/-- Whether the path of a metadata matcher contains a segment with the given
key, the key of a segment being what `GetKey` reads. -/
def hasKey (key : String) (mt : StructMatcher) : Bool :=
  mt.path.any (fun p => p.GetKey == key)

/-- The metadata matchers of a list of node matchers in scanning order: matcher
by matcher, and within a matcher entry by entry. -/
def metadataInOrder (nms : List NodeMatcher) : List StructMatcher :=
  (nms.map (fun nm => nm.node_metadatas)).flatten

/-- The text of the summary table `printOutResponse` prints for a response with
at least one client: the header, then what the client loop adds. -/
def summaryText (env : Env) (response : ClientStatusResponse) : String :=
  (summaryLoop env response.config ⟨headerRow, false⟩).1.stdout

/-- Whether a `float64` bit pattern is a zero, of either sign. -/
def floatIsZero (bits : Nat) : Bool := bits % 2 ^ 63 == 0

/-- Whether a `float64` bit pattern is a NaN. -/
def floatIsNaN (bits : Nat) : Bool := (bits / 2 ^ 52) % 2 ^ 11 == 2047 && bits % 2 ^ 52 != 0

/-- The Go comparison `==` on two `float64` values given by their bit patterns. -/
def floatEq (a b : Nat) : Bool :=
  !floatIsNaN a && !floatIsNaN b && (a == b || (floatIsZero a && floatIsZero b))

mutual
/-- Embeds `reflect.DeepEqual` on two values decoded by `json.Unmarshal`: same
dynamic type and equal content; maps are compared by size and key by key. -/
def deepEqual : Json → Json → Bool
  | .null, .null => true
  | .bool a, .bool b => a == b
  | .num a, .num b => floatEq a b
  | .str a, .str b => a == b
  | .arr xs, .arr ys => deepEqualList xs ys
  | .obj fs, .obj gs => fs.length == gs.length && deepEqualFields fs gs
  | _, _ => false
/-- The comparison of two slices: same length, equal element by element. -/
def deepEqualList : List Json → List Json → Bool
  | [], [] => true
  | x :: xs, y :: ys => deepEqual x y && deepEqualList xs ys
  | _, _ => false
/-- The comparison of the entries of a map with those of another: each key is
in the other map, with an equal value. -/
def deepEqualFields : List (String × Json) → List (String × Json) → Bool
  | [], _ => true
  | (k, v) :: rest, gs =>
    (match gs.lookup k with
      | some w => deepEqual v w
      | none => false) && deepEqualFields rest gs
end

/-- Embeds `equalJSONBytes` of the test file: both texts are unmarshalled, an error
of either is returned, and the verdict is `reflect.DeepEqual` on the two
values. -/
def equalJSONBytes (lib : Lib) (s1 s2 : String) : Except String Bool :=
  match lib.jsonUnmarshal s1 with
  | .error e => .error ("failed to marshal s1: " ++ e)
  | .ok o1 =>
    match lib.jsonUnmarshal s2 with
    | .error e => .error ("failed to marshal s2: " ++ e)
    | .ok o2 => .ok (deepEqual o1 o2)

/-- Embeds `shouldEqualJSON` of the test file: it calls `equalJSONBytes` on `s1` and
`s1`, answers `false` on an error and the verdict otherwise. -/
def shouldEqualJSON (lib : Lib) (s1 s2 : String) : Bool :=
  match equalJSONBytes lib s1 s1 with
  | .error _ => false
  | .ok verdict => verdict

/-- Whether a printed line ends with a space right before its line break, the
line break being the only one in it. -/
def isTableLine (l : String) : Bool :=
  match l.data.reverse with
  | '\n' :: ' ' :: body => !body.contains '\n'
  | _ => false

/-! ### Further example data -/

/-- A client with an identity whose sub-config slice is empty but not nil. -/
def exampleClientWithEmptyConfig : ClientConfig :=
  ⟨some (exampleNode "test_nodeid" "test_stream_type1"), some []⟩

/-- A client with an identity and one sub-config entry without a kind, so that
no status is visible. -/
def exampleClientWithHiddenConfig : ClientConfig :=
  ⟨some (exampleNode "test_nodeid" "test_stream_type1"), some [⟨3, none⟩]⟩

/-- A client whose metadata holds the number 5 under `XDS_STREAM_TYPE`. -/
def exampleClientWithNumberType : ClientConfig :=
  ⟨some ⟨"test_nodeid", some [("XDS_STREAM_TYPE", .number_value 4617315517961601024)]⟩, none⟩

/-- A library instance for the text `[`: `Decoder.Token` returns the delimiter and
then `io.EOF`, `json.Unmarshal` rejects the text, and so does `YAMLToJSON`. -/
def exampleTruncatedLib : Lib where
  abs := fun path => .ok path
  readFile := fun _ => .error "open: no such file or directory"
  yamlToJSON := fun _ => .error "yaml: did not find expected node content"
  decoderTokens := fun text => if text = "[" then [.ok (.delim '[')] else []
  jsonUnmarshal := fun _ => .error "unexpected end of JSON input"
  unmarshalMatcher := decodeNodeMatcher

/-- A JSON text holding the number 1 under the key `a`. -/
def exampleJsonOne : String := "\x7b\"a\": 1\x7d"

/-- A JSON text holding the number 2 under the key `a`. -/
def exampleJsonTwo : String := "\x7b\"a\": 2\x7d"

/-- The library instance that decodes the two texts above. -/
def exampleJsonLib : Lib :=
  Lib.fixture []
    [(exampleJsonOne, .obj [("a", .num 4607182418800017408)]),
      (exampleJsonTwo, .obj [("a", .num 4611686018427387904)])]

/-- An environment whose serializer fails, as `protojson` does on a payload whose
type the resolver does not find; the rest is as in `Env.fixture`. -/
def exampleFailingEnv : Env where
  statusString := configStatusName
  marshal := fun _ => .error "proto: unable to resolve type: not found"
  create := fun _ => .ok ()
  write := fun _ _ => .ok ()

/-- An environment in which every status prints as `STALE`; the rest is as in
`Env.fixture`. -/
def exampleStaleEnv : Env where
  statusString := fun _ => "STALE"
  marshal := fun _ => .ok "dump"
  create := fun _ => .ok ()
  write := fun _ _ => .ok ()

/-! ## Theorems: the loader and the merger -/

theorem positionalMerge_nil_left (os : List NodeMatcher) : positionalMerge [] os = os := by
  cases os <;> rfl

theorem positionalMerge_nil_right (bs : List NodeMatcher) : positionalMerge bs [] = bs := by
  cases bs <;> rfl

theorem length_positionalMerge (bs os : List NodeMatcher) :
    (positionalMerge bs os).length = max bs.length os.length := by
  induction bs generalizing os with
  | nil => simp [positionalMerge_nil_left]
  | cons b bs ih =>
    cases os with
    | nil => simp [positionalMerge]
    | cons o os => simp [positionalMerge, ih, Nat.succ_max_succ]

theorem getElem?_positionalMerge_both (bs os : List NodeMatcher) (i : Nat) (b o : NodeMatcher)
    (hb : bs[i]? = some b) (ho : os[i]? = some o) :
    (positionalMerge bs os)[i]? = some (NodeMatcher.Merge b o) := by
  induction bs generalizing os i with
  | nil => simp at hb
  | cons b0 bs ih =>
    cases os with
    | nil => simp at ho
    | cons o0 os =>
      cases i with
      | zero =>
        simp only [List.getElem?_cons_zero, Option.some.injEq] at hb ho
        simp [positionalMerge, hb, ho]
      | succ i =>
        simp only [List.getElem?_cons_succ] at hb ho
        simpa [positionalMerge] using ih os i hb ho

theorem getElem?_positionalMerge_overlay (bs os : List NodeMatcher) (i : Nat)
    (h : bs.length ≤ i) : (positionalMerge bs os)[i]? = os[i]? := by
  induction bs generalizing os i with
  | nil => simp [positionalMerge_nil_left]
  | cons b0 bs ih =>
    cases os with
    | nil =>
      have h2 : (b0 :: bs).length ≤ i := h
      simp [positionalMerge, List.getElem?_eq_none h2]
    | cons o0 os =>
      cases i with
      | zero => simp at h
      | succ i =>
        have h2 : bs.length ≤ i := by simpa using h
        simpa [positionalMerge] using ih os i h2

theorem getElem?_positionalMerge_base (bs os : List NodeMatcher) (i : Nat)
    (h : os.length ≤ i) : (positionalMerge bs os)[i]? = bs[i]? := by
  induction bs generalizing os i with
  | nil => simp [positionalMerge_nil_left, List.getElem?_eq_none h]
  | cons b0 bs ih =>
    cases os with
    | nil => simp [positionalMerge]
    | cons o0 os =>
      cases i with
      | zero => simp at h
      | succ i =>
        have h2 : os.length ≤ i := by simpa using h
        simpa [positionalMerge] using ih os i h2

theorem appendLoop_eq (lib : Lib) (items : List Json) (nms : List NodeMatcher) :
    appendLoop lib items nms =
      ⟨nms ++ (decodePrefix lib items).1, statusOfFailure (decodePrefix lib items).2⟩ := by
  induction items generalizing nms with
  | nil => simp [appendLoop, decodePrefix, statusOfFailure]
  | cons n rest ih =>
    cases h : lib.unmarshalMatcher n with
    | error e => simp [appendLoop, decodePrefix, statusOfFailure, h]
    | ok x => simp [appendLoop, decodePrefix, h, ih]

theorem take_succ_set {α : Type} (l : List α) (i : Nat) (v : α) (h : i < l.length) :
    (l.set i v).take (i + 1) = l.take i ++ [v] := by
  induction l generalizing i with
  | nil => simp at h
  | cons a l ih =>
    cases i with
    | zero => simp
    | succ i =>
      have h2 : i < l.length := by simpa using h
      simp [ih i h2]

theorem drop_succ_set {α : Type} (l : List α) (i : Nat) (v : α) :
    (l.set i v).drop (i + 1) = l.drop (i + 1) := by
  induction l generalizing i with
  | nil => simp
  | cons a l ih =>
    cases i with
    | zero => simp
    | succ i => simp [ih i]

theorem drop_eq_get_cons {α : Type} (l : List α) (i : Nat) (h : i < l.length) :
    l.drop i = l.get ⟨i, h⟩ :: l.drop (i + 1) := by
  induction l generalizing i with
  | nil => simp at h
  | cons a l ih =>
    cases i with
    | zero => simp
    | succ i =>
      have h2 : i < l.length := by simpa using h
      exact ih i h2

theorem mergeLoop_eq (lib : Lib) (items : List Json) (i : Nat) (nms : List NodeMatcher)
    (hi : i ≤ nms.length) :
    mergeLoop lib i items nms =
      ⟨nms.take i ++ positionalMerge (nms.drop i) (decodePrefix lib items).1,
        statusOfFailure (decodePrefix lib items).2⟩ := by
  induction items generalizing i nms with
  | nil => simp [mergeLoop, decodePrefix, statusOfFailure, positionalMerge_nil_right]
  | cons n rest ih =>
    cases h : lib.unmarshalMatcher n with
    | error e =>
      simp [mergeLoop, decodePrefix, statusOfFailure, h, positionalMerge_nil_right]
    | ok x =>
      by_cases hlt : i < nms.length
      · have hlen : i + 1 ≤ (nms.set i (NodeMatcher.Merge (nms.get ⟨i, hlt⟩) x)).length := by
          simp; omega
        simp only [mergeLoop, h, hlt, dite_true, decodePrefix]
        rw [ih (i + 1) _ hlen, drop_eq_get_cons nms i hlt, take_succ_set nms i _ hlt,
          drop_succ_set]
        simp [positionalMerge]
      · have heq : i = nms.length := by omega
        subst heq
        simp only [mergeLoop, h, hlt, dite_false, decodePrefix]
        rw [ih (nms.length + 1) _ (by simp)]
        simp [positionalMerge_nil_left, List.take_of_length_le]

theorem decodePrefix_of_all (lib : Lib) (items : List Json) (overlay : List NodeMatcher)
    (h : items.map lib.unmarshalMatcher = overlay.map Except.ok) :
    decodePrefix lib items = (overlay, none) := by
  induction items generalizing overlay with
  | nil =>
    cases overlay with
    | nil => rfl
    | cons o os => simp at h
  | cons n rest ih =>
    cases overlay with
    | nil => simp at h
    | cons o os =>
      simp only [List.map_cons, List.cons.injEq] at h
      simp [decodePrefix, h.1, ih os h.2]

/-- C1. The overlay stage of `parseYaml` pairs purely by index.  When the inline
text yields the item list `items` and every item decodes, to the matchers
`overlay`, the stage returns no error and leaves a list of length
`max (len base) (len overlay)` whose entry `i` is `overlay[i]` merged into
`base[i]` where both lists have an entry, `overlay[i]` itself past the end of
`base`, and `base[i]` unchanged past the end of `overlay`. -/
theorem textStage_pairs_by_index (lib : Lib) (yamlStr : String) (data : List (String × Json))
    (items : List Json) (base overlay : List NodeMatcher)
    (hdoc : textDocument lib yamlStr = .ok data)
    (hitems : nodeMatchersOf data = some items)
    (hdec : items.map lib.unmarshalMatcher = overlay.map Except.ok) :
    (textStage lib yamlStr base).status = .ok ∧
    (textStage lib yamlStr base).nms.length = max base.length overlay.length ∧
    (∀ (i : Nat) (b o : NodeMatcher), base[i]? = some b → overlay[i]? = some o →
      (textStage lib yamlStr base).nms[i]? = some (NodeMatcher.Merge b o)) ∧
    (∀ (i : Nat) (o : NodeMatcher), base.length ≤ i → overlay[i]? = some o →
      (textStage lib yamlStr base).nms[i]? = some o) ∧
    (∀ (i : Nat) (b : NodeMatcher), overlay.length ≤ i → base[i]? = some b →
      (textStage lib yamlStr base).nms[i]? = some b) := by
  have hrun : textStage lib yamlStr base = ⟨positionalMerge base overlay, .ok⟩ := by
    simp [textStage, hdoc, hitems, mergeLoop_eq, decodePrefix_of_all lib items overlay hdec,
      statusOfFailure]
  rw [hrun]
  refine ⟨rfl, length_positionalMerge base overlay, ?_, ?_, ?_⟩
  · intro i b o hb ho
    exact getElem?_positionalMerge_both base overlay i b o hb ho
  · intro i o hi ho
    simpa [getElem?_positionalMerge_overlay base overlay i hi] using ho
  · intro i b hi hb
    simpa [getElem?_positionalMerge_base base overlay i hi] using hb


/-- The overlay stage on the example request: the inline text, merged into the
matcher loaded from the example file, pairs by index. -/
theorem textStage_pairs_by_index_witness :
    (textStage exampleLib exampleInlineText [exampleFileMatcher]).status = .ok ∧
    (textStage exampleLib exampleInlineText [exampleFileMatcher]).nms.length = 1 ∧
    (textStage exampleLib exampleInlineText [exampleFileMatcher]).nms[0]? =
      some (NodeMatcher.Merge exampleFileMatcher
        ⟨some ⟨some (.Exact "fake_node_id_from_cli")⟩, []⟩) :=
  have h := textStage_pairs_by_index exampleLib exampleInlineText
    [("node_matchers", .arr [.obj [("node_id", .obj [("exact", .str "fake_node_id_from_cli")])]])]
    [.obj [("node_id", .obj [("exact", .str "fake_node_id_from_cli")])]]
    [exampleFileMatcher] [⟨some ⟨some (.Exact "fake_node_id_from_cli")⟩, []⟩] rfl rfl rfl
  ⟨h.1, h.2.1, h.2.2.1 0 _ _ rfl rfl⟩

theorem idPattern_merge (b o : NodeMatcher) :
    (NodeMatcher.Merge b o).idPattern =
      if o.idPattern.isSome then o.idPattern else b.idPattern := by
  rcases b with ⟨_ | ⟨_ | q⟩, bm⟩ <;> rcases o with ⟨_ | ⟨_ | p⟩, om⟩ <;>
    simp [NodeMatcher.Merge, NodeMatcher.idPattern, StringMatcher.Merge]

/-- C2. Field by field, at every index `i` that both lists cover: the merged
matcher carries the node-identity match of `overlay[i]` when `overlay[i]` sets
one and that of `base[i]` otherwise (its whole `node_id` is that of `base[i]`
when `overlay[i]` has none), and its metadata matchers are those of `base[i]`
followed by those of `overlay[i]`, nothing dropped.  In particular an overlay
entry that sets only a node-identity match yields that match with the
metadata matchers of the base entry unchanged. -/
theorem textStage_merges_fields (lib : Lib) (yamlStr : String) (data : List (String × Json))
    (items : List Json) (base overlay : List NodeMatcher) (i : Nat) (b o : NodeMatcher)
    (hdoc : textDocument lib yamlStr = .ok data)
    (hitems : nodeMatchersOf data = some items)
    (hdec : items.map lib.unmarshalMatcher = overlay.map Except.ok)
    (hb : base[i]? = some b) (ho : overlay[i]? = some o) :
    ∃ m, (textStage lib yamlStr base).nms[i]? = some m ∧
      m.idPattern = (if o.idPattern.isSome then o.idPattern else b.idPattern) ∧
      (o.node_id = none → m.node_id = b.node_id) ∧
      m.node_metadatas = b.node_metadatas ++ o.node_metadatas ∧
      (∀ p, o.idPattern = some p → o.node_metadatas = [] →
        m.idPattern = some p ∧ m.node_metadatas = b.node_metadatas) := by
  have hrun : textStage lib yamlStr base = ⟨positionalMerge base overlay, .ok⟩ := by
    simp [textStage, hdoc, hitems, mergeLoop_eq, decodePrefix_of_all lib items overlay hdec,
      statusOfFailure]
  refine ⟨NodeMatcher.Merge b o, ?_, idPattern_merge b o, ?_, rfl, ?_⟩
  · rw [hrun]
    exact getElem?_positionalMerge_both base overlay i b o hb ho
  · intro hnone
    simp [NodeMatcher.Merge, hnone]
  · intro p hp hm
    refine ⟨?_, ?_⟩
    · rw [idPattern_merge, hp]; rfl
    · simp [NodeMatcher.Merge, hm]

/-- The example request: the inline text overrides the node id of the matcher
loaded from the example file and keeps its metadata matcher. -/
theorem textStage_merges_fields_witness :
    ∃ m, (textStage exampleLib exampleInlineText [exampleFileMatcher]).nms[0]? = some m ∧
      m.idPattern = some (.Exact "fake_node_id_from_cli") ∧
      m.node_metadatas = exampleFileMatcher.node_metadatas := by
  obtain ⟨m, h1, -, -, -, h5⟩ := textStage_merges_fields exampleLib exampleInlineText
    [("node_matchers", .arr [.obj [("node_id", .obj [("exact", .str "fake_node_id_from_cli")])]])]
    [.obj [("node_id", .obj [("exact", .str "fake_node_id_from_cli")])]]
    [exampleFileMatcher] [⟨some ⟨some (.Exact "fake_node_id_from_cli")⟩, []⟩] 0
    exampleFileMatcher ⟨some ⟨some (.Exact "fake_node_id_from_cli")⟩, []⟩ rfl rfl rfl rfl rfl
  exact ⟨m, h1, h5 _ rfl rfl⟩

theorem decodePrefix_spec (lib : Lib) (items : List Json) :
    ((decodePrefix lib items).2 = none ∧
      items.map lib.unmarshalMatcher = (decodePrefix lib items).1.map Except.ok) ∨
    (∃ e k, (decodePrefix lib items).2 = some e ∧ k < items.length ∧
      (items.take k).map lib.unmarshalMatcher = (decodePrefix lib items).1.map Except.ok ∧
      items[k]?.map lib.unmarshalMatcher = some (.error e)) := by
  induction items with
  | nil => left; simp [decodePrefix]
  | cons n rest ih =>
    cases h : lib.unmarshalMatcher n with
    | error e =>
      right
      exact ⟨e, 0, by simp [decodePrefix, h], by simp, by simp [decodePrefix, h], by simp [h]⟩
    | ok x =>
      rcases ih with ⟨h1, h2⟩ | ⟨e, k, h1, h2, h3, h4⟩
      · left
        simp [decodePrefix, h, h1, h2]
      · right
        refine ⟨e, k + 1, by simp [decodePrefix, h, h1], by simpa using h2, ?_, ?_⟩
        · simp [decodePrefix, h, h3]
        · simpa using h4

theorem parseYaml_eq (lib : Lib) (path yamlStr : String) (nms : List NodeMatcher)
    (fileItems textItems : List Json)
    (hfile : (path = "" ∧ fileItems = []) ∨
      (path ≠ "" ∧ ∃ data, fileDocument lib path = .ok data ∧
        nodeMatchersOf data = some fileItems))
    (htext : (yamlStr = "" ∧ textItems = []) ∨
      (yamlStr ≠ "" ∧ ∃ data, textDocument lib yamlStr = .ok data ∧
        nodeMatchersOf data = some textItems)) :
    parseYaml lib path yamlStr nms =
      match (decodePrefix lib fileItems).2 with
      | some e => ⟨nms ++ (decodePrefix lib fileItems).1, .error e⟩
      | none =>
        ⟨positionalMerge (nms ++ (decodePrefix lib fileItems).1) (decodePrefix lib textItems).1,
          statusOfFailure (decodePrefix lib textItems).2⟩ := by
  have hstage1 : (if path ≠ "" then fileStage lib path nms else ⟨nms, .ok⟩) =
      (⟨nms ++ (decodePrefix lib fileItems).1,
        statusOfFailure (decodePrefix lib fileItems).2⟩ : ParseResult) := by
    rcases hfile with ⟨hp, hi⟩ | ⟨hp, data, hd, hi⟩
    · simp [hp, hi, decodePrefix, statusOfFailure]
    · simp [hp, fileStage, hd, hi, appendLoop_eq]
  have hstage2 : ∀ l, (if yamlStr ≠ "" then textStage lib yamlStr l else ⟨l, .ok⟩) =
      (⟨positionalMerge l (decodePrefix lib textItems).1,
        statusOfFailure (decodePrefix lib textItems).2⟩ : ParseResult) := by
    intro l
    rcases htext with ⟨hp, hi⟩ | ⟨hp, data, hd, hi⟩
    · simp [hp, hi, decodePrefix, statusOfFailure, positionalMerge_nil_right]
    · simp [hp, textStage, hd, hi, mergeLoop_eq]
  unfold parseYaml
  simp only [hstage1]
  cases hf : (decodePrefix lib fileItems).2 with
  | none => simp only [statusOfFailure, hstage2]
  | some e => simp only [statusOfFailure]

/-- C3, the claim as stated fails.  The second matcher of the broken request file
is malformed: the call returns its error, and the matcher list, empty before
the call, then holds the first matcher of the file. -/
theorem parseYaml_error_keeps_first_matcher :
    (parseYaml exampleLib "./broken_request.yaml" "" []).status =
        .error "proto: syntax error: invalid StringMatcher" ∧
      (parseYaml exampleLib "./broken_request.yaml" "" []).nms =
        [⟨some ⟨some (.Exact "a")⟩, []⟩] ∧
      (parseYaml exampleLib "./broken_request.yaml" "" []).nms ≠ [] := by
  refine ⟨rfl, rfl, ?_⟩
  have h : (parseYaml exampleLib "./broken_request.yaml" "" []).nms =
      [⟨some ⟨some (.Exact "a")⟩, []⟩] := rfl
  rw [h]
  exact List.cons_ne_nil _ _

/-- C3, amended.  For a call whose two sources yield the item lists `fileItems`
and `textItems` (an empty source yields none), either no error is returned
and every item of both sources has been decoded and loaded, the file's
appended and the text's merged by position; or the error of the first
malformed item is returned, and the list keeps all that was loaded before
that item: the file's matchers before it when it is in the file, all of the
file's matchers and the text's matchers before it when it is in the text.
Nothing is rolled back. -/
theorem parseYaml_loads_until_first_failure (lib : Lib) (path yamlStr : String)
    (nms : List NodeMatcher) (fileItems textItems : List Json)
    (hfile : (path = "" ∧ fileItems = []) ∨
      (path ≠ "" ∧ ∃ data, fileDocument lib path = .ok data ∧
        nodeMatchersOf data = some fileItems))
    (htext : (yamlStr = "" ∧ textItems = []) ∨
      (yamlStr ≠ "" ∧ ∃ data, textDocument lib yamlStr = .ok data ∧
        nodeMatchersOf data = some textItems)) :
    ((parseYaml lib path yamlStr nms).status = .ok ∧
      ∃ xs ys, fileItems.map lib.unmarshalMatcher = xs.map Except.ok ∧
        textItems.map lib.unmarshalMatcher = ys.map Except.ok ∧
        (parseYaml lib path yamlStr nms).nms = positionalMerge (nms ++ xs) ys) ∨
    (∃ e k xs, (parseYaml lib path yamlStr nms).status = .error e ∧
        k < fileItems.length ∧
        (fileItems.take k).map lib.unmarshalMatcher = xs.map Except.ok ∧
        fileItems[k]?.map lib.unmarshalMatcher = some (.error e) ∧
        (parseYaml lib path yamlStr nms).nms = nms ++ xs) ∨
    (∃ e k xs ys, (parseYaml lib path yamlStr nms).status = .error e ∧
        fileItems.map lib.unmarshalMatcher = xs.map Except.ok ∧
        k < textItems.length ∧
        (textItems.take k).map lib.unmarshalMatcher = ys.map Except.ok ∧
        textItems[k]?.map lib.unmarshalMatcher = some (.error e) ∧
        (parseYaml lib path yamlStr nms).nms = positionalMerge (nms ++ xs) ys) := by
  rw [parseYaml_eq lib path yamlStr nms fileItems textItems hfile htext]
  rcases decodePrefix_spec lib fileItems with ⟨f1, f2⟩ | ⟨e, k, f1, f2, f3, f4⟩
  · rcases decodePrefix_spec lib textItems with ⟨t1, t2⟩ | ⟨e, k, t1, t2, t3, t4⟩
    · left
      simp only [f1, t1, statusOfFailure]
      exact ⟨trivial, _, _, f2, t2, rfl⟩
    · right; right
      simp only [f1, t1, statusOfFailure]
      exact ⟨e, k, _, _, rfl, f2, t2, t3, t4, rfl⟩
  · right; left
    simp only [f1]
    exact ⟨e, k, _, rfl, f2, f3, f4, rfl⟩

/-- The broken request file: its first item decodes, its second does not, and
the call returns the error with the first matcher left in the list. -/
theorem parseYaml_loads_until_first_failure_witness :
    ∃ e k xs, (parseYaml exampleLib "./broken_request.yaml" "" []).status = .error e ∧
      k < 2 ∧ (parseYaml exampleLib "./broken_request.yaml" "" []).nms = [] ++ xs ∧
      xs.length = 1 := by
  have h := parseYaml_loads_until_first_failure exampleLib "./broken_request.yaml" "" []
    [.obj [("node_id", .obj [("exact", .str "a")])], .obj [("node_id", .num 4617315517961601024)]]
    [] (Or.inr ⟨by decide, _, rfl, rfl⟩) (Or.inl ⟨rfl, rfl⟩)
  have hst : (parseYaml exampleLib "./broken_request.yaml" "" []).status =
      .error "proto: syntax error: invalid StringMatcher" := rfl
  have hn : (parseYaml exampleLib "./broken_request.yaml" "" []).nms =
      [⟨some ⟨some (.Exact "a")⟩, []⟩] := rfl
  rcases h with ⟨h1, -⟩ | ⟨e, k, xs, h1, h2, -, -, h5⟩ | ⟨e, k, xs, ys, -, -, h3, -⟩
  · rw [hst] at h1
    exact absurd h1 (by decide)
  · refine ⟨e, k, xs, h1, h2, h5, ?_⟩
    rw [hn] at h5
    have := congrArg List.length h5
    simpa using this.symm
  · simp at h3

/-- C4, what the code does.  When a source parses to a JSON object (or to `null`)
whose `node_matchers` key is missing or holds anything but a list, the type
assertion on it panics: `parseYaml` ends in a run-time panic with the matcher
list untouched, and returns no error to its caller.  This holds for the
request file and for the inline text alike. -/
theorem parseYaml_panics_without_matcher_list (lib : Lib) (path yamlStr : String)
    (nms : List NodeMatcher) (data : List (String × Json))
    (hshape : data.lookup "node_matchers" = none ∨
      ∃ v, data.lookup "node_matchers" = some v ∧ ∀ items, v ≠ .arr items) :
    (path ≠ "" → fileDocument lib path = .ok data →
      parseYaml lib path yamlStr nms = ⟨nms, .panic notAList⟩) ∧
    (yamlStr ≠ "" → textDocument lib yamlStr = .ok data →
      parseYaml lib "" yamlStr nms = ⟨nms, .panic notAList⟩) := by
  have hnone : nodeMatchersOf data = none := by
    rcases hshape with h | ⟨v, h, hv⟩
    · simp [nodeMatchersOf, h]
    · cases v with
      | arr items => exact absurd rfl (hv items)
      | null => simp [nodeMatchersOf, h]
      | bool b => simp [nodeMatchersOf, h]
      | num n => simp [nodeMatchersOf, h]
      | str t => simp [nodeMatchersOf, h]
      | obj fs => simp [nodeMatchersOf, h]
  constructor
  · intro hp hd
    simp [parseYaml, hp, fileStage, hd, hnone]
  · intro hy hd
    simp [parseYaml, hy, textStage, hd, hnone]

/-- The inline text whose `node_matchers` is a string makes `parseYaml` panic. -/
theorem parseYaml_panics_without_matcher_list_witness :
    parseYaml exampleLib "" exampleNoListText [] = ⟨[], .panic notAList⟩ :=
  (parseYaml_panics_without_matcher_list exampleLib "" exampleNoListText []
    [("node_matchers", .str "all")]
    (Or.inr ⟨.str "all", rfl, by intro items h; cases h⟩)).2 (by decide) rfl

/-! ## Theorems: the type resolver -/

/-- C5. `FindMessageByURL` is a total lookup in a fixed table: it returns a
message type exactly for the five registered type URLs (each its own type),
returns `NotFound` exactly for every other string, and, being a function of
the url alone, gives the same result each time it is asked. -/
theorem FindMessageByURL_registry (url : String) :
    ((∃ m, TypeResolver.FindMessageByURL url = .ok m) ↔ url ∈ registeredURLs) ∧
    (TypeResolver.FindMessageByURL url = .error .NotFound ↔ url ∉ registeredURLs) ∧
    (∀ r r2, TypeResolver.FindMessageByURL url = r → TypeResolver.FindMessageByURL url = r2 →
      r = r2) ∧
    registeredURLs.map TypeResolver.FindMessageByURL =
      [.ok .HttpConnectionManager, .ok .Cluster, .ok .Listener, .ok .Router,
        .ok .RouteConfiguration] := by
  refine ⟨?_, ?_, ?_, rfl⟩
  · unfold TypeResolver.FindMessageByURL registeredURLs
    split_ifs <;> simp_all
  · unfold TypeResolver.FindMessageByURL registeredURLs
    split_ifs <;> simp_all
  · intro r r2 h1 h2
    rw [← h1, ← h2]

/-! ## Theorems: the summary -/

theorem xdsTag_eq (x : PerXdsConfig) : xdsTag x = (populatedTag x).getD "" := by
  rcases x with ⟨st, _ | ⟨_ | d⟩ | ⟨_ | d⟩ | ⟨_ | d⟩ | ⟨_ | d⟩⟩ <;>
    simp [xdsTag, populatedTag, PerXdsConfig.GetClusterConfig, PerXdsConfig.GetListenerConfig,
      PerXdsConfig.GetRouteConfig, PerXdsConfig.GetScopedRouteConfig]

theorem populatedTag_ne_empty (x : PerXdsConfig) (tag : String) (h : populatedTag x = some tag) :
    tag ≠ "" := by
  rcases x with ⟨st, _ | ⟨_ | d⟩ | ⟨_ | d⟩ | ⟨_ | d⟩ | ⟨_ | d⟩⟩ <;>
    simp [populatedTag] at h <;> subst h <;> decide

theorem parseConfigStatus_step (env : Env) (acc : List String) (x : PerXdsConfig) :
    (if env.statusString x.status ≠ "" ∧ xdsTag x ≠ "" then
        acc ++ [xdsTag x ++ "   " ++ env.statusString x.status]
      else acc) = acc ++ (visibleStatus env x).toList := by
  rw [xdsTag_eq]
  cases htag : populatedTag x with
  | none => simp [visibleStatus, htag]
  | some tag =>
    have hne := populatedTag_ne_empty x tag htag
    by_cases hs : env.statusString x.status = "" <;> simp [visibleStatus, htag, hs, hne]

theorem parseConfigStatus_foldl (env : Env) (xs : List PerXdsConfig) (acc : List String) :
    xs.foldl
      (fun configStatus perXdsConfig =>
        if env.statusString perXdsConfig.status ≠ "" ∧ xdsTag perXdsConfig ≠ "" then
          configStatus ++ [xdsTag perXdsConfig ++ "   " ++ env.statusString perXdsConfig.status]
        else configStatus)
      acc = acc ++ xs.filterMap (visibleStatus env) := by
  induction xs generalizing acc with
  | nil => simp
  | cons x xs ih =>
    rw [List.foldl_cons, parseConfigStatus_step, ih]
    cases h : visibleStatus env x <;> simp [List.filterMap_cons, h]

/-- C6. `parseConfigStatus` returns, in input order, exactly the strings
tag, three spaces, status of the entries whose sub-config kind is populated
(`CDS`, `LDS`, `RDS`, `SRDS` for cluster, listener, route, scoped route) and
whose status string is non-empty; every other entry contributes nothing, so
the result is never longer than the input. -/
theorem parseConfigStatus_visible (env : Env) (xs : List PerXdsConfig) :
    parseConfigStatus env xs = xs.filterMap (visibleStatus env) ∧
    (parseConfigStatus env xs).length ≤ xs.length := by
  have h : parseConfigStatus env xs = xs.filterMap (visibleStatus env) := by
    unfold parseConfigStatus
    simpa using parseConfigStatus_foldl env xs []
  exact ⟨h, by rw [h]; exact List.length_filterMap_le _ _⟩

theorem lines_append (l1 l2 : List String) : lines (l1 ++ l2) = lines l1 ++ lines l2 := by
  induction l1 with
  | nil => simp [lines]
  | cons a l ih => simp [lines, ih, String.append_assoc]

theorem statusRows_succ (i : Nat) (l : List String) :
    statusRows (i + 1) l = lines (l.map (tableRow "" "")) := by
  induction l generalizing i with
  | nil => rfl
  | cons s rest ih => simp [statusRows, lines, ih]

theorem statusRows_zero_cons (s : String) (rest : List String) :
    statusRows 0 (s :: rest) = padRight 30 s ++ " \n" ++ lines (rest.map (tableRow "" "")) := by
  simp [statusRows, statusRows_succ]

theorem rowStart_append (id xdsType s : String) :
    rowStart id xdsType ++ (padRight 30 s ++ " \n") = tableRow id xdsType s := by
  simp [rowStart, tableRow, String.append_assoc]

theorem printClient_visible (env : Env) (config : ClientConfig) (id xdsType : String)
    (st : LoopState) (xs : List PerXdsConfig) (s0 : String) (rest : List String)
    (hx : config.xds_config = some xs) (hs : parseConfigStatus env xs = s0 :: rest) :
    printClient env config id xdsType st =
      ⟨st.stdout ++ lines (tableRow id xdsType s0 :: rest.map (tableRow "" "")), true⟩ := by
  simp only [printClient, hx, hs, statusRows_zero_cons, lines]
  simp [← rowStart_append, String.append_assoc]

/-- C7, the claim as stated fails.  A client without a node that carries one
stale cluster sub-config gets a summary row of its own, with blank id and
stream-type columns. -/
theorem printOutResponse_row_for_absent_node :
    exampleClientWithoutNode.node.isSome = false ∧
    (printOutResponse (Env.fixture "dump") ⟨[exampleClientWithoutNode]⟩ "out.json").stdout =
      headerRow ++ tableRow "" "" "CDS   STALE" ++ "Config has been saved to out.json\n" ∧
    tableRow "" "" "CDS   STALE" ≠ "" := by
  refine ⟨rfl, rfl, by decide⟩

/-- C7, amended.  A client without a node contributes no line to the summary
when its sub-config list is nil, the form a client without sub-config entries
has in a decoded response (the client loop goes on in the same state); but
when it carries at least one sub-config entry it is printed like any other
client, with blank id and stream-type columns: the started row, then its
status rows, or a bare line break when no status is visible. -/
theorem summaryLoop_absent_node (env : Env) (config : ClientConfig) (post : List ClientConfig)
    (st : LoopState) (hnode : config.node = none) :
    (config.xds_config = none →
      summaryLoop env (config :: post) st = summaryLoop env post st) ∧
    (∀ xs, xs ≠ [] → config.xds_config = some xs →
      summaryLoop env (config :: post) st =
        summaryLoop env post
          ⟨st.stdout ++ rowStart "" "" ++ statusRows 0 (parseConfigStatus env xs) ++
            (if (parseConfigStatus env xs).length = 0 then "\n" else ""), true⟩) := by
  constructor
  · intro hx
    simp [summaryLoop, clientIdentity, printClient, hnode, hx]
  · intro xs _ hx
    simp [summaryLoop, clientIdentity, printClient, hnode, hx]

/-- The client without a node and with one stale cluster sub-config: the loop
adds its row to the header. -/
theorem summaryLoop_absent_node_witness :
    summaryLoop (Env.fixture "dump") [exampleClientWithoutNode] ⟨headerRow, false⟩ =
      (⟨headerRow ++ tableRow "" "" "CDS   STALE", true⟩, false) :=
  ((summaryLoop_absent_node (Env.fixture "dump") exampleClientWithoutNode []
    ⟨headerRow, false⟩ rfl).2 _ (List.cons_ne_nil _ _) rfl).trans rfl

/-- C8. A client that carries sub-config entries of which `k ≥ 1` are visible,
with status strings `s0 :: rest`, gets exactly `k` lines: the first holds its
id, its stream type and `s0` in the 50/30/30 layout, each later one holds
blank id and stream-type columns and the next status, in order.  Here `id` and
`xdsType` are the id and stream type the loop reads off the client. -/
theorem summaryLoop_visible_rows (env : Env) (config : ClientConfig) (post : List ClientConfig)
    (st : LoopState) (id xdsType : String) (xs : List PerXdsConfig) (s0 : String)
    (rest : List String)
    (hid : clientIdentity config = some (id, xdsType))
    (hx : config.xds_config = some xs)
    (hs : parseConfigStatus env xs = s0 :: rest) :
    summaryLoop env (config :: post) st =
      summaryLoop env post
        ⟨st.stdout ++ lines (tableRow id xdsType s0 :: rest.map (tableRow "" "")), true⟩ ∧
    (tableRow id xdsType s0 :: rest.map (tableRow "" "")).length =
      (parseConfigStatus env xs).length ∧
    tableRow id xdsType s0 =
      padRight 50 id ++ " " ++ padRight 30 xdsType ++ " " ++ padRight 30 s0 ++ " " ++ "\n" := by
  refine ⟨?_, by simp [hs], ?_⟩
  · simp [summaryLoop, hid, printClient_visible env config id xdsType st xs s0 rest hx hs]
  · simp [tableRow, String.append_assoc]

/-- The client of the second response test: one row with its id, stream type and
`RDS   STALE`, then one row with blank columns and `CDS   STALE`. -/
theorem summaryLoop_visible_rows_witness :
    summaryLoop (Env.fixture "dump") [exampleClientWithConfig] ⟨headerRow, false⟩ =
      (⟨("Client ID                                          xDS stream type                Config Status                  \n" ++
        "test_nodeid                                        test_stream_type1              RDS   STALE                    \n" ++
        "                                                                                  CDS   STALE                    \n"), true⟩, false) :=
  ((summaryLoop_visible_rows (Env.fixture "dump") exampleClientWithConfig []
    ⟨headerRow, false⟩ "test_nodeid" "test_stream_type1"
    [⟨3, some (.RouteConfig (some ⟨""⟩))⟩, ⟨3, some (.ClusterConfig (some ⟨""⟩))⟩]
    "RDS   STALE" ["CDS   STALE"] rfl rfl rfl).1).trans rfl

theorem summaryLoop_without_config (env : Env) (clients : List ClientConfig)
    (rows : List (String × String)) (st : LoopState)
    (hnode : ∀ c ∈ clients, c.node.isSome = true ∧ c.xds_config = none)
    (hid : clients.map clientIdentity = rows.map some) :
    summaryLoop env clients st =
      (⟨st.stdout ++ lines (rows.map (fun r => tableRow r.1 r.2 "N/A")), st.hasXdsConfig⟩,
        false) := by
  induction clients generalizing rows st with
  | nil =>
    cases rows with
    | nil => simp [summaryLoop, lines]
    | cons r rs => simp at hid
  | cons c cs ih =>
    cases rows with
    | nil => simp at hid
    | cons r rs =>
      simp only [List.map_cons, List.cons.injEq] at hid
      obtain ⟨hn, hx⟩ := hnode c (List.mem_cons_self _ _)
      have hrest : ∀ c2 ∈ cs, c2.node.isSome = true ∧ c2.xds_config = none :=
        fun c2 h2 => hnode c2 (List.mem_cons_of_mem _ h2)
      obtain ⟨id, xdsType⟩ := r
      simp only [summaryLoop, hid.1, printClient, hx, hn, if_true]
      rw [ih rs _ hrest hid.2]
      simp [lines, String.append_assoc]

/-- C9, the claim as stated fails.  A client with an identity whose sub-config
slice is empty but not nil has no sub-config entries, yet the call prints for
it a row without `N/A` and then performs the detailed export, which is not the
header followed by one `N/A` row. -/
theorem printOutResponse_exports_for_empty_config :
    exampleClientWithEmptyConfig.node.isSome = true ∧
    exampleClientWithEmptyConfig.xds_config = some [] ∧
    printOutResponse (Env.fixture "dump") ⟨[exampleClientWithEmptyConfig]⟩ "" =
      ⟨headerRow ++ (rowStart "test_nodeid" "test_stream_type1" ++ "\n") ++
        "Detailed Config:\n" ++ "dump\n", [], .ok⟩ ∧
    printOutResponse (Env.fixture "dump") ⟨[exampleClientWithEmptyConfig]⟩ "" ≠
      ⟨headerRow ++ tableRow "test_nodeid" "test_stream_type1" "N/A", [], .ok⟩ := by
  refine ⟨rfl, rfl, rfl, ?_⟩
  intro h
  have hlen := congrArg (fun o => o.stdout.length) h
  revert hlen
  decide

/-- C9, amended.  For a response with `n ≥ 1` clients, each with a node and a nil
sub-config list (the form a client without sub-config entries has in a decoded
response), whose ids and stream types the loop reads as `rows`, the whole
output is the header line followed by exactly `n` rows: the id, the stream
type and `N/A` of each client, in response order.  Nothing else is printed, no
file is touched and no error is returned, whatever the file name. -/
theorem printOutResponse_without_config (env : Env) (response : ClientStatusResponse)
    (fileName : String) (rows : List (String × String))
    (hn : 1 ≤ response.config.length)
    (hnode : ∀ c ∈ response.config, c.node.isSome = true ∧ c.xds_config = none)
    (hid : response.config.map clientIdentity = rows.map some) :
    printOutResponse env response fileName =
      ⟨headerRow ++ lines (rows.map (fun r => tableRow r.1 r.2 "N/A")), [], .ok⟩ ∧
    rows.length = response.config.length ∧
    headerRow = padRight 50 "Client ID" ++ " " ++ padRight 30 "xDS stream type" ++ " " ++
      padRight 30 "Config Status" ++ " \n" := by
  refine ⟨?_, ?_, rfl⟩
  · have hlen : ¬ response.config.length = 0 := by omega
    simp [printOutResponse, hlen, summaryLoop_without_config env response.config rows _ hnode hid,
      headerRow]
  · have := congrArg List.length hid
    simpa using this.symm

/-- The first response test: three clients without sub-config print the header
and three `N/A` rows, and nothing is exported. -/
theorem printOutResponse_without_config_witness :
    printOutResponse (Env.fixture "dump") exampleResponseWithoutConfig "" =
      ⟨("Client ID                                          xDS stream type                Config Status                  \n" ++
        "test_node_1                                        test_stream_type1              N/A                            \n" ++
        "test_node_2                                        test_stream_type2              N/A                            \n" ++
        "test_node_3                                        test_stream_type3              N/A                            \n"), [], .ok⟩ :=
  ((printOutResponse_without_config (Env.fixture "dump") exampleResponseWithoutConfig ""
    [("test_node_1", "test_stream_type1"), ("test_node_2", "test_stream_type2"),
      ("test_node_3", "test_stream_type3")]
    (by decide) (by decide) rfl).1).trans rfl

/-- C10. For a response with zero clients `printOutResponse` prints exactly the
line `No xDS clients connected.`, no header and no row, touches no file
whatever the file name is, and returns no error. -/
theorem printOutResponse_no_clients (env : Env) (response : ClientStatusResponse)
    (fileName : String) (h : response.config.length = 0) :
    printOutResponse env response fileName = ⟨"No xDS clients connected.\n", [], .ok⟩ := by
  simp [printOutResponse, h]

/-- The empty response, with a file name given: the notice only, no file. -/
theorem printOutResponse_no_clients_witness :
    printOutResponse (Env.fixture "dump") ⟨[]⟩ "out.json" =
      ⟨"No xDS clients connected.\n", [], .ok⟩ :=
  printOutResponse_no_clients (Env.fixture "dump") ⟨[]⟩ "out.json" rfl

/-! ## Theorems: the export trigger -/

theorem printClient_flag (env : Env) (config : ClientConfig) (id xdsType : String)
    (st : LoopState) :
    (printClient env config id xdsType st).hasXdsConfig =
      (st.hasXdsConfig || config.xds_config.isSome) := by
  cases hx : config.xds_config with
  | none =>
    by_cases hn : config.node.isSome = true <;> simp [printClient, hx, hn]
  | some xs => simp [printClient, hx]

theorem summaryLoop_flag (env : Env) (clients : List ClientConfig) (st : LoopState)
    (hid : ∀ c ∈ clients, (clientIdentity c).isSome = true) :
    (summaryLoop env clients st).2 = false ∧
    (summaryLoop env clients st).1.hasXdsConfig =
      (st.hasXdsConfig || clients.any (fun c => c.xds_config.isSome)) := by
  induction clients generalizing st with
  | nil => simp [summaryLoop]
  | cons c cs ih =>
    have hc := hid c (List.mem_cons_self _ _)
    have hrest : ∀ c2 ∈ cs, (clientIdentity c2).isSome = true :=
      fun c2 h2 => hid c2 (List.mem_cons_of_mem _ h2)
    cases hci : clientIdentity c with
    | none => simp [hci] at hc
    | some p =>
      obtain ⟨id, xdsType⟩ := p
      simp only [summaryLoop, hci]
      refine ⟨(ih _ hrest).1, ?_⟩
      rw [(ih _ hrest).2, printClient_flag]
      simp [Bool.or_assoc]

theorem exportConfig_ne_plain (env : Env) (response : ClientStatusResponse)
    (fileName text : String) :
    exportConfig env response fileName text ≠ ⟨text, [], .ok⟩ := by
  unfold exportConfig
  cases hm : env.marshal response with
  | error e => simp
  | ok out =>
    by_cases hf : fileName = ""
    · simp only [hf, if_true]
      intro h
      have hlen := congrArg (fun o => o.stdout.length) h
      simp only [String.length_append] at hlen
      have h17 : "Detailed Config:\n".length = 17 := by decide
      omega
    · simp only [hf, if_false]
      cases hc : env.create fileName with
      | error e => simp
      | ok u =>
        cases hw : env.write fileName out with
        | error e => simp
        | ok u2 => simp

theorem printOutResponse_by_flag (env : Env) (response : ClientStatusResponse)
    (fileName : String)
    (hid : ∀ c ∈ response.config, (clientIdentity c).isSome = true) :
    (response.config.any (fun c => c.xds_config.isSome) = true →
      printOutResponse env response fileName =
        exportConfig env response fileName (summaryText env response)) ∧
    (response.config.any (fun c => c.xds_config.isSome) = false →
      printOutResponse env response fileName =
        ⟨if response.config.length = 0 then "No xDS clients connected.\n"
          else summaryText env response, [], .ok⟩) := by
  obtain ⟨hpanic, hflag⟩ := summaryLoop_flag env response.config ⟨headerRow, false⟩ hid
  have hloop : summaryLoop env response.config ⟨headerRow, false⟩ =
      (⟨summaryText env response, response.config.any (fun c => c.xds_config.isSome)⟩,
        false) := by
    have e : summaryText env response =
        (summaryLoop env response.config ⟨headerRow, false⟩).1.stdout := rfl
    rw [e]
    rcases hr : summaryLoop env response.config ⟨headerRow, false⟩ with ⟨⟨out, flag⟩, p⟩
    rw [hr] at hpanic hflag
    simp only [Bool.false_or] at hpanic hflag
    simp [hpanic, hflag]
  refine ⟨?_, ?_⟩
  · intro hany
    have hlen : ¬ response.config.length = 0 := by
      intro h0
      have : response.config = [] := List.length_eq_zero.mp h0
      simp [this] at hany
    have hloop2 := hloop
    rw [hany] at hloop2
    simp only [printOutResponse, hlen, if_false]
    rw [show tableRow "Client ID" "xDS stream type" "Config Status" = headerRow from rfl, hloop2]
    simp
  · intro hany
    by_cases hlen : response.config.length = 0
    · simp [printOutResponse, hlen]
    · have hloop2 := hloop
      rw [hany] at hloop2
      simp only [printOutResponse, hlen, if_false]
      rw [show tableRow "Client ID" "xDS stream type" "Config Status" = headerRow from rfl,
        hloop2]
      simp

theorem any_isSome_iff_nonempty (clients : List ClientConfig)
    (hnorm : ∀ c ∈ clients, c.xds_config ≠ some []) :
    clients.any (fun c => c.xds_config.isSome) = true ↔
      ∃ c ∈ clients, ∃ xs, c.xds_config = some xs ∧ xs ≠ [] := by
  constructor
  · intro hany
    rw [List.any_eq_true] at hany
    obtain ⟨c, hc, hsome⟩ := hany
    cases hx : c.xds_config with
    | none => simp [hx] at hsome
    | some xs =>
      refine ⟨c, hc, xs, hx, ?_⟩
      intro hnil
      exact hnorm c hc (by rw [hx, hnil])
  · rintro ⟨c, hc, xs, hx, -⟩
    rw [List.any_eq_true]
    exact ⟨c, hc, by simp [hx]⟩

/-- C11, the claim as stated fails.  The client of the second response test
carries two sub-config entries, yet when the serializer fails the call
returns its error after the summary: no `Detailed Config:` dump is printed and
no file is written. -/
theorem printOutResponse_no_dump_when_marshal_fails :
    exampleClientWithConfig.xds_config =
      some [⟨3, some (.RouteConfig (some ⟨""⟩))⟩, ⟨3, some (.ClusterConfig (some ⟨""⟩))⟩] ∧
    printOutResponse exampleFailingEnv ⟨[exampleClientWithConfig]⟩ "" =
      ⟨headerRow ++ tableRow "test_nodeid" "test_stream_type1" "RDS   STALE" ++
          tableRow "" "" "CDS   STALE", [],
        .error "proto: unable to resolve type: not found"⟩ ∧
    printOutResponse exampleFailingEnv ⟨[exampleClientWithConfig]⟩ "test_config.json" =
      ⟨headerRow ++ tableRow "test_nodeid" "test_stream_type1" "RDS   STALE" ++
          tableRow "" "" "CDS   STALE", [],
        .error "proto: unable to resolve type: not found"⟩ := by
  exact ⟨rfl, rfl, rfl⟩

/-- C11, amended.  For a response each of whose clients the loop reads and in
which a client without sub-config entries has a nil list, the export is
attempted if and only if at least one client carries a non-empty sub-config
list: with such a client the call is the export block run on top of the
summary, without one it is the summary alone (or the notice), which the export
block never equals.  The trigger looks at nothing else, neither at the visible
statuses nor at the identity.  The export block serializes the response: when
that fails the error is returned and nothing is dumped or written; when it
succeeds the dump goes to standard output under `Detailed Config:` for an
empty file name, and otherwise to the file, followed by the confirmation
line. -/
theorem printOutResponse_export_trigger (env : Env) (response : ClientStatusResponse)
    (fileName : String)
    (hid : ∀ c ∈ response.config, (clientIdentity c).isSome = true)
    (hnorm : ∀ c ∈ response.config, c.xds_config ≠ some []) :
    ((∃ c ∈ response.config, ∃ xs, c.xds_config = some xs ∧ xs ≠ []) →
      printOutResponse env response fileName =
        exportConfig env response fileName (summaryText env response)) ∧
    ((¬ ∃ c ∈ response.config, ∃ xs, c.xds_config = some xs ∧ xs ≠ []) →
      printOutResponse env response fileName =
        ⟨if response.config.length = 0 then "No xDS clients connected.\n"
          else summaryText env response, [], .ok⟩) ∧
    (∀ text, exportConfig env response fileName text ≠ ⟨text, [], .ok⟩) ∧
    (∀ text e, env.marshal response = .error e →
      exportConfig env response fileName text = ⟨text, [], .error e⟩) ∧
    (∀ text out, env.marshal response = .ok out → fileName = "" →
      exportConfig env response fileName text =
        ⟨text ++ "Detailed Config:\n" ++ (out ++ "\n"), [], .ok⟩) ∧
    (∀ text out, env.marshal response = .ok out → fileName ≠ "" →
      env.create fileName = .ok () → env.write fileName out = .ok () →
      exportConfig env response fileName text =
        ⟨text ++ ("Config has been saved to " ++ fileName ++ "\n"),
          [.create fileName, .write fileName out], .ok⟩) := by
  obtain ⟨hyes, hno⟩ := printOutResponse_by_flag env response fileName hid
  have hiff := any_isSome_iff_nonempty response.config hnorm
  refine ⟨?_, ?_, exportConfig_ne_plain env response fileName, ?_, ?_, ?_⟩
  · intro hex
    exact hyes (hiff.mpr hex)
  · intro hex
    apply hno
    cases hany : response.config.any (fun c => c.xds_config.isSome) with
    | false => rfl
    | true => exact absurd (hiff.mp hany) hex
  · intro text e hm
    simp [exportConfig, hm]
  · intro text out hm hf
    simp [exportConfig, hm, hf]
  · intro text out hm hf hc hw
    simp [exportConfig, hm, hf, hc, hw]

/-- The client of the second response test carries two sub-configs: the call is
the export on top of the summary, here the file write and its confirmation
line. -/
theorem printOutResponse_export_trigger_witness :
    printOutResponse (Env.fixture "dump") ⟨[exampleClientWithConfig]⟩ "test_config.json" =
      ⟨headerRow ++ tableRow "test_nodeid" "test_stream_type1" "RDS   STALE" ++
          tableRow "" "" "CDS   STALE" ++ "Config has been saved to test_config.json\n",
        [.create "test_config.json", .write "test_config.json" "dump"], .ok⟩ :=
  ((printOutResponse_export_trigger (Env.fixture "dump") ⟨[exampleClientWithConfig]⟩
    "test_config.json" (by decide) (by decide)).1
      ⟨exampleClientWithConfig, List.mem_singleton.mpr rfl, _, rfl,
        List.cons_ne_nil _ _⟩).trans rfl

/-! ## Theorems: empty sources -/

/-- C12. Merging with an empty overlay is the identity: when the file block of
the call ends without error with the list `base` (what the file source loaded
on top of the list it was given), the call whose inline text is empty, or
supplies an empty `node_matchers` list, ends without error with the same list
`base`, element for element; and the inline-text block run on any list `l`
with an empty `node_matchers` list leaves `l` as it is. -/
theorem parseYaml_empty_overlay (lib : Lib) (path yamlStr : String)
    (nms base : List NodeMatcher)
    (hpath : path ≠ "")
    (hfile : fileStage lib path nms = ⟨base, .ok⟩)
    (hempty : yamlStr = "" ∨
      ∃ data, textDocument lib yamlStr = .ok data ∧ nodeMatchersOf data = some []) :
    parseYaml lib path yamlStr nms = ⟨base, .ok⟩ ∧
    (yamlStr ≠ "" → ∀ l, textStage lib yamlStr l = ⟨l, .ok⟩) := by
  constructor
  · unfold parseYaml
    simp only [hpath, ne_eq, not_false_eq_true, if_true, hfile]
    rcases hempty with h | ⟨data, hd, hi⟩
    · simp [h]
    · by_cases hy : yamlStr = ""
      · simp [hy]
      · simp [hy, textStage, hd, hi, mergeLoop]
  · intro hy l
    rcases hempty with h | ⟨data, hd, hi⟩
    · exact absurd h hy
    · simp [textStage, hd, hi, mergeLoop]

/-- The first loader test: the example file loads its one matcher, and with an
empty inline text the result is that matcher unchanged. -/
theorem parseYaml_empty_overlay_witness :
    parseYaml exampleLib "./test_request.yaml" "" [] = ⟨[exampleFileMatcher], .ok⟩ :=
  (parseYaml_empty_overlay exampleLib "./test_request.yaml" "" [] [exampleFileMatcher]
    (by decide) rfl (Or.inl rfl)).1

/-- C13. With both sources empty (`path == ""` and `yamlStr == ""`) `parseYaml`
returns no error and leaves the matcher list as it was; starting from the
empty list the result is the empty list. -/
theorem parseYaml_no_sources (lib : Lib) (nms : List NodeMatcher) :
    parseYaml lib "" "" nms = ⟨nms, .ok⟩ ∧ parseYaml lib "" "" [] = ⟨[], .ok⟩ := by
  constructor <;> simp [parseYaml]

/-! ## Theorems: the layout of the summary lines -/

theorem isTableLine_of_body (body : String) (h : '\n' ∉ body.data) :
    isTableLine (body ++ " \n") = true := by
  have hd : (body ++ " \n").data.reverse = '\n' :: ' ' :: body.data.reverse := by
    simp [String.data_append]
  simp only [isTableLine, hd]
  simpa using h

theorem noNewline_append (a b : String) (ha : '\n' ∉ a.data) (hb : '\n' ∉ b.data) :
    '\n' ∉ (a ++ b).data := by
  simp [String.data_append, ha, hb]

theorem noNewline_padRight (width : Nat) (s : String) (h : '\n' ∉ s.data) :
    '\n' ∉ (padRight width s).data := by
  unfold padRight
  apply noNewline_append _ _ h
  simp [List.mem_replicate]

theorem isTableLine_tableRow (a b c : String) (ha : '\n' ∉ a.data) (hb : '\n' ∉ b.data)
    (hc : '\n' ∉ c.data) : isTableLine (tableRow a b c) = true := by
  have hbody : '\n' ∉ (padRight 50 a ++ " " ++ padRight 30 b ++ " " ++ padRight 30 c).data := by
    refine noNewline_append _ _ (noNewline_append _ _ (noNewline_append _ _
      (noNewline_append _ _ (noNewline_padRight 50 a ha) (by decide))
      (noNewline_padRight 30 b hb)) (by decide)) (noNewline_padRight 30 c hc)
  exact isTableLine_of_body _ hbody

theorem isTableLine_rowStart (a b : String) (ha : '\n' ∉ a.data) (hb : '\n' ∉ b.data) :
    isTableLine (rowStart a b ++ "\n") = true := by
  have hbody : '\n' ∉ (padRight 50 a ++ " " ++ padRight 30 b).data := by
    refine noNewline_append _ _ (noNewline_append _ _ (noNewline_padRight 50 a ha) (by decide))
      (noNewline_padRight 30 b hb)
  have e : rowStart a b ++ "\n" = (padRight 50 a ++ " " ++ padRight 30 b) ++ " \n" := by
    simp [rowStart, String.append_assoc]
  rw [e]
  exact isTableLine_of_body _ hbody

theorem noNewline_visibleStatus (env : Env) (x : PerXdsConfig) (s : String)
    (hstatus : ∀ n, '\n' ∉ (env.statusString n).data) (h : visibleStatus env x = some s) :
    '\n' ∉ s.data := by
  unfold visibleStatus at h
  cases htag : populatedTag x with
  | none => simp [htag] at h
  | some tag =>
    have htagNL : '\n' ∉ tag.data := by
      rcases x with ⟨st, _ | ⟨_ | d⟩ | ⟨_ | d⟩ | ⟨_ | d⟩ | ⟨_ | d⟩⟩ <;>
        simp [populatedTag] at htag <;> subst htag <;> decide
    simp only [htag] at h
    split at h
    · simp only [Option.some.injEq] at h
      rw [← h]
      exact noNewline_append _ _ (noNewline_append _ _ htagNL (by decide)) (hstatus _)
    · simp at h

theorem noNewline_parseConfigStatus (env : Env) (xs : List PerXdsConfig)
    (hstatus : ∀ n, '\n' ∉ (env.statusString n).data) :
    ∀ s ∈ parseConfigStatus env xs, '\n' ∉ s.data := by
  intro s hs
  have hfold : parseConfigStatus env xs = xs.filterMap (visibleStatus env) := by
    unfold parseConfigStatus
    simpa using parseConfigStatus_foldl env xs []
  rw [hfold, List.mem_filterMap] at hs
  obtain ⟨x, -, hx⟩ := hs
  exact noNewline_visibleStatus env x s hstatus hx

theorem printClient_lines (env : Env) (config : ClientConfig) (id xdsType : String)
    (st : LoopState) (hstatus : ∀ n, '\n' ∉ (env.statusString n).data)
    (hid : '\n' ∉ id.data) (ht : '\n' ∉ xdsType.data) :
    ∃ added : List String,
      (printClient env config id xdsType st).stdout = st.stdout ++ lines added ∧
      ∀ l ∈ added, isTableLine l = true := by
  cases hx : config.xds_config with
  | none =>
    by_cases hn : config.node.isSome = true
    · refine ⟨[tableRow id xdsType "N/A"], by simp [printClient, hx, hn, lines], ?_⟩
      intro l hl
      simp only [List.mem_singleton] at hl
      rw [hl]
      exact isTableLine_tableRow _ _ _ hid ht (by decide)
    · exact ⟨[], by simp [printClient, hx, hn, lines], by simp⟩
  | some xs =>
    cases hs : parseConfigStatus env xs with
    | nil =>
      refine ⟨[rowStart id xdsType ++ "\n"], ?_, ?_⟩
      · simp [printClient, hx, hs, statusRows, lines, String.append_assoc]
      · intro l hl
        simp only [List.mem_singleton] at hl
        rw [hl]
        exact isTableLine_rowStart _ _ hid ht
    | cons s0 rest =>
      have hno := noNewline_parseConfigStatus env xs hstatus
      rw [hs] at hno
      refine ⟨tableRow id xdsType s0 :: rest.map (tableRow "" ""), ?_, ?_⟩
      · rw [printClient_visible env config id xdsType st xs s0 rest hx hs]
      · intro l hl
        rcases List.mem_cons.mp hl with h | h
        · rw [h]
          exact isTableLine_tableRow _ _ _ hid ht (hno s0 (List.mem_cons_self _ _))
        · obtain ⟨s, hsm, rfl⟩ := List.mem_map.mp h
          exact isTableLine_tableRow _ _ _ (by decide) (by decide)
            (hno s (List.mem_cons_of_mem _ hsm))

theorem summaryLoop_lines (env : Env) (clients : List ClientConfig) (st : LoopState)
    (hstatus : ∀ n, '\n' ∉ (env.statusString n).data)
    (hident : ∀ c ∈ clients, ∀ id xdsType, clientIdentity c = some (id, xdsType) →
      '\n' ∉ id.data ∧ '\n' ∉ xdsType.data) :
    ∃ added : List String,
      (summaryLoop env clients st).1.stdout = st.stdout ++ lines added ∧
      ∀ l ∈ added, isTableLine l = true := by
  induction clients generalizing st with
  | nil => exact ⟨[], by simp [summaryLoop, lines], by simp⟩
  | cons c cs ih =>
    cases hci : clientIdentity c with
    | none => exact ⟨[], by simp [summaryLoop, hci, lines], by simp⟩
    | some p =>
      obtain ⟨id, xdsType⟩ := p
      obtain ⟨hid, ht⟩ := hident c (List.mem_cons_self _ _) id xdsType hci
      obtain ⟨a1, h1, h1l⟩ := printClient_lines env c id xdsType st hstatus hid ht
      obtain ⟨a2, h2, h2l⟩ := ih (printClient env c id xdsType st)
        (fun c2 hc2 => hident c2 (List.mem_cons_of_mem _ hc2))
      refine ⟨a1 ++ a2, ?_, ?_⟩
      · simp only [summaryLoop, hci]
        rw [h2, h1, lines_append, String.append_assoc]
      · intro l hl
        rcases List.mem_append.mp hl with h | h
        · exact h1l l h
        · exact h2l l h

/-- C14. For a response with at least one client, when no identity, stream type
or status string holds a line break, the summary table is made of lines each
of which ends with a space right before its line break (the only line break
in it): the header, the `N/A` rows, the status rows, the continuation rows and
the row of a client with sub-configs but no visible status.  The summary is
the start of what the call prints. -/
theorem summaryText_lines_end_with_space (env : Env) (response : ClientStatusResponse)
    (fileName : String)
    (hn : 1 ≤ response.config.length)
    (hstatus : ∀ n, '\n' ∉ (env.statusString n).data)
    (hident : ∀ c ∈ response.config, ∀ id xdsType, clientIdentity c = some (id, xdsType) →
      '\n' ∉ id.data ∧ '\n' ∉ xdsType.data) :
    (∃ rows : List String, summaryText env response = lines rows ∧
      rows.head? = some headerRow ∧ ∀ l ∈ rows, isTableLine l = true) ∧
    ∃ tail, (printOutResponse env response fileName).stdout = summaryText env response ++ tail := by
  constructor
  · obtain ⟨added, h1, h2⟩ :=
      summaryLoop_lines env response.config ⟨headerRow, false⟩ hstatus hident
    refine ⟨headerRow :: added, ?_, rfl, ?_⟩
    · unfold summaryText
      rw [h1]
      rfl
    · intro l hl
      rcases List.mem_cons.mp hl with h | h
      · rw [h]; decide
      · exact h2 l h
  · have hlen : ¬ response.config.length = 0 := by omega
    have hh : tableRow "Client ID" "xDS stream type" "Config Status" = headerRow := rfl
    unfold summaryText
    simp only [printOutResponse, hlen, if_false, hh]
    rcases hr : summaryLoop env response.config ⟨headerRow, false⟩ with ⟨⟨out, flag⟩, p⟩
    cases p with
    | true => exact ⟨"", by simp⟩
    | false =>
      cases flag with
      | false => exact ⟨"", by simp⟩
      | true =>
        simp only [if_true]
        unfold exportConfig
        cases hm : env.marshal response with
        | error e => exact ⟨"", by simp⟩
        | ok dump =>
          by_cases hf : fileName = ""
          · exact ⟨"Detailed Config:\n" ++ (dump ++ "\n"), by simp [hf, String.append_assoc]⟩
          · simp only [hf, if_false]
            cases hc : env.create fileName with
            | error e => exact ⟨"", by simp⟩
            | ok u =>
              cases hw : env.write fileName dump with
              | error e => exact ⟨"", by simp⟩
              | ok u2 => exact ⟨_, rfl⟩

/-- The client of the second response test, with every status printed as `STALE`:
the header and its two rows each end with a space before the line break. -/
theorem summaryText_lines_end_with_space_witness :
    (∃ rows : List String,
      summaryText exampleStaleEnv ⟨[exampleClientWithConfig]⟩ = lines rows ∧
      rows.head? = some headerRow ∧ ∀ l ∈ rows, isTableLine l = true) ∧
    ∃ tail, (printOutResponse exampleStaleEnv ⟨[exampleClientWithConfig]⟩ "").stdout =
      summaryText exampleStaleEnv ⟨[exampleClientWithConfig]⟩ ++ tail :=
  summaryText_lines_end_with_space exampleStaleEnv ⟨[exampleClientWithConfig]⟩ ""
    (by decide) (fun _ => (by decide : '\n' ∉ "STALE".data))
    (by
      intro c hc id xdsType h
      simp only [List.mem_singleton] at hc
      subst hc
      have hci : clientIdentity exampleClientWithConfig =
          some ("test_nodeid", "test_stream_type1") := rfl
      rw [hci] at h
      simp only [Option.some.injEq, Prod.mk.injEq] at h
      obtain ⟨h1, h2⟩ := h
      subst h1 h2
      exact ⟨by decide, by decide⟩)

/-! ## Theorems: the JSON test of the loader -/

theorem isJsonLoop_of_no_error (results : List (Except String Token))
    (h : ∀ r ∈ results, ∃ t, r = .ok t) : isJsonLoop results = true := by
  induction results with
  | nil => rfl
  | cons r rest ih =>
    obtain ⟨t, ht⟩ := h r (List.mem_cons_self _ _)
    subst ht
    simpa [isJsonLoop] using ih (fun r2 h2 => h r2 (List.mem_cons_of_mem _ h2))

/-- C16, what the code does.  `isJson` accepts a text as soon as no call of
`Decoder.Token` reports an error before the end of the input, whether or not
the text is one well-formed JSON document.  A non-empty text that it accepts
and that `json.Unmarshal` rejects makes `parseYaml` return the error of
`json.Unmarshal`, without the conversion from YAML being tried. -/
theorem isJson_accepts_clean_token_stream (lib : Lib) (str e : String)
    (nms : List NodeMatcher)
    (htok : ∀ r ∈ lib.decoderTokens str, ∃ t, r = .ok t)
    (hbad : lib.jsonUnmarshal str = .error e) (hne : str ≠ "") :
    isJson lib str = true ∧ parseYaml lib "" str nms = ⟨nms, .error e⟩ := by
  have hj : isJson lib str = true := isJsonLoop_of_no_error _ htok
  refine ⟨hj, ?_⟩
  simp [parseYaml, hne, textStage, textDocument, hj, unmarshalMap, hbad]

/-- The text `[`: the tokenizer returns the opening bracket and then reaches the
end of the input, so `isJson` accepts the text, and the loader fails with the
error of `json.Unmarshal`. -/
theorem isJson_accepts_clean_token_stream_witness :
    isJson exampleTruncatedLib "[" = true ∧
    parseYaml exampleTruncatedLib "" "[" [] = ⟨[], .error "unexpected end of JSON input"⟩ :=
  isJson_accepts_clean_token_stream exampleTruncatedLib "[" "unexpected end of JSON input" []
    (by
      intro r hr
      have hl : exampleTruncatedLib.decoderTokens "[" = [.ok (.delim '[')] := rfl
      rw [hl] at hr
      simp only [List.mem_singleton] at hr
      exact ⟨_, hr⟩)
    rfl (by decide)

/-! ## Theorems: the metadata lookup -/

theorem pathLoop_eq_any (key : String) (path : List PathSegment) :
    pathLoop key path = path.any (fun p => p.GetKey == key) := by
  induction path with
  | nil => rfl
  | cons p rest ih =>
    by_cases h : p.GetKey = key <;> simp [pathLoop, h, ih]

theorem metadataLoop_eq_find (key : String) (mts : List StructMatcher) :
    metadataLoop key mts =
      (mts.find? (hasKey key)).map
        (fun mt => StringMatcher.GetExact (ValueMatcher.GetStringMatch mt.value)) := by
  induction mts with
  | nil => rfl
  | cons mt rest ih =>
    have hp : pathLoop key mt.path = hasKey key mt := pathLoop_eq_any key mt.path
    cases hk : hasKey key mt <;> simp [metadataLoop, hp, hk, ih, List.find?_cons]

theorem matcherLoop_eq_find (key : String) (nms : List NodeMatcher) :
    matcherLoop key nms =
      ((metadataInOrder nms).find? (hasKey key)).map
        (fun mt => StringMatcher.GetExact (ValueMatcher.GetStringMatch mt.value)) := by
  induction nms with
  | nil => rfl
  | cons nm rest ih =>
    have hcons : metadataInOrder (nm :: rest) = nm.node_metadatas ++ metadataInOrder rest := by
      simp [metadataInOrder]
    rw [hcons, List.find?_append]
    simp only [matcherLoop, metadataLoop_eq_find, ih]
    cases hf : nm.node_metadatas.find? (hasKey key) <;> simp

/-- C17. `getValueByKeyFromNodeMatcher` returns the exact-match string value of the
first metadata matcher, scanning the matchers in order and the metadata
entries of each in order, whose path contains a segment with the key; it
returns the empty string when no metadata matcher has the key in its path.
The exact-match string value is what the getters read: the empty string when
the value is no exact string match. -/
theorem getValueByKeyFromNodeMatcher_first (nms : List NodeMatcher) (key : String) :
    getValueByKeyFromNodeMatcher nms key =
      (match (metadataInOrder nms).find? (hasKey key) with
        | some mt => StringMatcher.GetExact (ValueMatcher.GetStringMatch mt.value)
        | none => "") ∧
    ((metadataInOrder nms).all (fun mt => !hasKey key mt) = true →
      getValueByKeyFromNodeMatcher nms key = "") := by
  have h : getValueByKeyFromNodeMatcher nms key =
      (match (metadataInOrder nms).find? (hasKey key) with
        | some mt => StringMatcher.GetExact (ValueMatcher.GetStringMatch mt.value)
        | none => "") := by
    unfold getValueByKeyFromNodeMatcher
    rw [matcherLoop_eq_find]
    cases (metadataInOrder nms).find? (hasKey key) <;> rfl
  refine ⟨h, ?_⟩
  intro hall
  have hnone : (metadataInOrder nms).find? (hasKey key) = none := by
    rw [List.find?_eq_none]
    intro mt hmt
    have := List.all_eq_true.mp hall mt hmt
    simpa using this
  rw [h, hnone]

/-- The matcher of the example file: the lookup of its metadata key returns the
exact value, and the lookup of a key it does not hold returns the empty
string. -/
theorem getValueByKeyFromNodeMatcher_first_witness :
    getValueByKeyFromNodeMatcher [exampleFileMatcher] "TRAFFICDIRECTOR_NETWORK_NAME" =
      "fake_network_name" ∧
    getValueByKeyFromNodeMatcher [exampleFileMatcher] "TRAFFICDIRECTOR_GCP_PROJECT_NUMBER" = "" :=
  ⟨(getValueByKeyFromNodeMatcher_first [exampleFileMatcher]
      "TRAFFICDIRECTOR_NETWORK_NAME").1.trans rfl,
    (getValueByKeyFromNodeMatcher_first [exampleFileMatcher]
      "TRAFFICDIRECTOR_GCP_PROJECT_NUMBER").2 rfl⟩

/-! ## Theorems: a client without a visible status, and the stream type -/

/-- C18. A client that carries sub-config entries none of which is visible gets
exactly one line: its id left-justified to width 50, a space, its stream type
left-justified to width 30, a space, and a bare line break, with no status
column.  The loop goes on with the has-sub-config flag set, so the client
triggers the export: a response holding just this client is exported. -/
theorem summaryLoop_hidden_config (env : Env) (config : ClientConfig)
    (post : List ClientConfig) (st : LoopState) (id xdsType : String)
    (xs : List PerXdsConfig)
    (hid : clientIdentity config = some (id, xdsType))
    (hx : config.xds_config = some xs)
    (hs : parseConfigStatus env xs = []) :
    summaryLoop env (config :: post) st =
      summaryLoop env post
        ⟨st.stdout ++ (padRight 50 id ++ " " ++ padRight 30 xdsType ++ " " ++ "\n"), true⟩ ∧
    ∀ fileName, printOutResponse env ⟨[config]⟩ fileName =
      exportConfig env ⟨[config]⟩ fileName
        (headerRow ++ (padRight 50 id ++ " " ++ padRight 30 xdsType ++ " " ++ "\n")) := by
  have hstep : ∀ st0 : LoopState, printClient env config id xdsType st0 =
      ⟨st0.stdout ++ (padRight 50 id ++ " " ++ padRight 30 xdsType ++ " " ++ "\n"), true⟩ := by
    intro st0
    simp [printClient, hx, hs, statusRows, rowStart, String.append_assoc]
  constructor
  · simp [summaryLoop, hid, hstep]
  · intro fileName
    have hh : tableRow "Client ID" "xDS stream type" "Config Status" = headerRow := rfl
    simp [printOutResponse, summaryLoop, hid, hstep, hh]

/-- The client with one sub-config entry without a kind: one line with its id and
stream type and no status, and the export runs. -/
theorem summaryLoop_hidden_config_witness :
    summaryLoop (Env.fixture "dump") [exampleClientWithHiddenConfig] ⟨headerRow, false⟩ =
      (⟨headerRow ++ (padRight 50 "test_nodeid" ++ " " ++ padRight 30 "test_stream_type1" ++
        " " ++ "\n"), true⟩, false) :=
  ((summaryLoop_hidden_config (Env.fixture "dump") exampleClientWithHiddenConfig []
    ⟨headerRow, false⟩ "test_nodeid" "test_stream_type1" [⟨3, none⟩] rfl rfl rfl).1).trans rfl

/-- C19, what the code does.  When the metadata of a client holds a number, a
boolean, a struct or a list under `XDS_STREAM_TYPE`, the type assertion to
`string` panics: no stream type is extracted, and `printOutResponse` ends in a
run-time panic after printing the header, whatever follows in the response. -/
theorem printOutResponse_panics_on_non_string_type (env : Env) (id : String) (v : Value)
    (rest : List (String × Value)) (xds : Option (List PerXdsConfig))
    (post : List ClientConfig) (fileName : String)
    (hv : (∃ bits, v = .number_value bits) ∨ (∃ b, v = .bool_value b) ∨
      (∃ fields, v = .struct_value fields) ∨ (∃ values, v = .list_value values)) :
    clientIdentity ⟨some ⟨id, some (("XDS_STREAM_TYPE", v) :: rest)⟩, xds⟩ = none ∧
    printOutResponse env ⟨⟨some ⟨id, some (("XDS_STREAM_TYPE", v) :: rest)⟩, xds⟩ :: post⟩
        fileName =
      ⟨headerRow, [], .panic "interface conversion: interface {} is not string"⟩ := by
  have hci : clientIdentity ⟨some ⟨id, some (("XDS_STREAM_TYPE", v) :: rest)⟩, xds⟩ = none := by
    rcases hv with ⟨b, rfl⟩ | ⟨b, rfl⟩ | ⟨f, rfl⟩ | ⟨l, rfl⟩ <;>
      simp [clientIdentity, Node.metadataAsMap, asMapFields, Value.AsInterface, mapIndex,
        List.lookup]
  refine ⟨hci, ?_⟩
  have hh : tableRow "Client ID" "xDS stream type" "Config Status" = headerRow := rfl
  simp [printOutResponse, summaryLoop, hci, hh]

/-- The client whose `XDS_STREAM_TYPE` is the number 5: the call panics after the
header. -/
theorem printOutResponse_panics_on_non_string_type_witness :
    printOutResponse (Env.fixture "dump") ⟨[exampleClientWithNumberType]⟩ "" =
      ⟨headerRow, [], .panic "interface conversion: interface {} is not string"⟩ :=
  (printOutResponse_panics_on_non_string_type (Env.fixture "dump") "test_nodeid"
    (.number_value 4617315517961601024) [] none [] "" (Or.inl ⟨_, rfl⟩)).2

/-! ## Theorems: the JSON comparison of the tests -/

/-- C20, what the code does.  `shouldEqualJSON` compares its first text with itself:
on two valid JSON texts that decode to different values, which
`equalJSONBytes` tells apart, it answers `true`; its answer never depends on
the second text. -/
theorem shouldEqualJSON_ignores_second_text :
    shouldEqualJSON exampleJsonLib exampleJsonOne exampleJsonTwo = true ∧
    equalJSONBytes exampleJsonLib exampleJsonOne exampleJsonTwo = .ok false ∧
    ∀ (lib : Lib) (s1 s2 s3 : String), shouldEqualJSON lib s1 s2 = shouldEqualJSON lib s1 s3 := by
  refine ⟨rfl, rfl, ?_⟩
  intro lib s1 s2 s3
  rfl

end Csds
